import Mathlib

/-!
# OEngine::Physic — a verification development of `libs/openengine/bullet/physic.cpp`

The physics wrapper is embedded as pure state-passing functions.

* Real-valued quantities (`float`, `btScalar`, Ogre and Bullet vectors) are exact rationals.
* A `RigidBody*` is a record that carries the address of the object it points to; two pointers
  are the same pointer when the addresses agree.  `new` hands out the next unused address.
* `std::map<std::string, T>` is a key-unique association list.
* The Bullet dynamics world is the collection of bodies currently registered in it, each with
  the collision group and mask it was registered with.
-/

namespace OEngine
namespace Physic

/-! ## Vectors, quaternions, transforms -/

/-- Ogre::Vector3 / btVector3 with exact components. -/
structure Vector3 where
  x : ℚ
  y : ℚ
  z : ℚ
deriving DecidableEq

/-- Ogre::Quaternion / btQuaternion with exact components. -/
structure Quaternion where
  w : ℚ
  x : ℚ
  y : ℚ
  z : ℚ
deriving DecidableEq

namespace Vector3

/-- The vector `Ogre::Vector3(s)`: all three components equal to `s`. -/
def splat (s : ℚ) : Vector3 := ⟨s, s, s⟩

/-- Component-wise sum, `operator+`. -/
def add (a b : Vector3) : Vector3 := ⟨a.x + b.x, a.y + b.y, a.z + b.z⟩

/-- Component-wise difference, `operator-`. -/
def sub (a b : Vector3) : Vector3 := ⟨a.x - b.x, a.y - b.y, a.z - b.z⟩

/-- Multiplication by a scalar, `operator*(float)`. -/
def scale (a : Vector3) (s : ℚ) : Vector3 := ⟨a.x * s, a.y * s, a.z * s⟩

/-- Cross product, `Vector3::crossProduct`. -/
def cross (a b : Vector3) : Vector3 :=
  ⟨a.y * b.z - a.z * b.y, a.z * b.x - a.x * b.z, a.x * b.y - a.y * b.x⟩

end Vector3

namespace Quaternion

/-- The constant `Ogre::Quaternion::IDENTITY`. -/
def IDENTITY : Quaternion := ⟨1, 0, 0, 0⟩

/-- Quaternion product, `Ogre::Quaternion::operator*(const Quaternion&)`. -/
def mul (p q : Quaternion) : Quaternion :=
  ⟨p.w * q.w - p.x * q.x - p.y * q.y - p.z * q.z,
   p.w * q.x + p.x * q.w + p.y * q.z - p.z * q.y,
   p.w * q.y + p.y * q.w + p.z * q.x - p.x * q.z,
   p.w * q.z + p.z * q.w + p.x * q.y - p.y * q.x⟩

/-- Rotation of a vector, `Ogre::Quaternion::operator*(const Vector3&)`. -/
def rotate (q : Quaternion) (v : Vector3) : Vector3 :=
  let qvec : Vector3 := ⟨q.x, q.y, q.z⟩
  let uv := qvec.cross v
  let uuv := qvec.cross uv
  (v.add (uv.scale (2 * q.w))).add (uuv.scale 2)

end Quaternion

/-- The world transform of a collision object: an origin and a rotation. -/
structure btTransform where
  origin : Vector3
  rotation : Quaternion
deriving DecidableEq

/-- The identity transform a freshly constructed `btRigidBody` starts with. -/
def btTransform.identity : btTransform := ⟨Vector3.splat 0, Quaternion.IDENTITY⟩

/-! ## Collision categories -/

/-- Modelled from the spec: the `CollisionType` enumeration is declared in `physic.hpp`, which is
not among the sources; the four filter categories of the spec are four distinct bits. -/
def CollisionType_World : Nat := 1

/-- Modelled from the spec: the Actor filter category of the `CollisionType` enumeration
(declared in `physic.hpp`). -/
def CollisionType_Actor : Nat := 2

/-- Modelled from the spec: the HeightMap filter category of the `CollisionType` enumeration
(declared in `physic.hpp`). -/
def CollisionType_HeightMap : Nat := 4

/-- Modelled from the spec: the Raycasting filter category of the `CollisionType` enumeration
(declared in `physic.hpp`). -/
def CollisionType_Raycasting : Nat := 8

/-! ## `std::map<std::string, T>` -/

/-- A `std::map` keyed by strings: an association list in which no key occurs twice. -/
structure StdMap (V : Type) where
  entries : List (String × V)
  nodup : (entries.map Prod.fst).Nodup

namespace StdMap

variable {V : Type}

/-- The empty map. -/
def empty : StdMap V := ⟨[], List.nodup_nil⟩

/-- Lookup in an association list: the value of the first entry under the key. -/
def lookup (k : String) : List (String × V) → Option V
  | [] => none
  | (k', v) :: rest => if k' = k then some v else lookup k rest

/-- Member function `find`: the mapped value, or `none` for `end()`. -/
def find (m : StdMap V) (k : String) : Option V := lookup k m.entries

/-- The entries whose key differs from `k`. -/
def without (k : String) (l : List (String × V)) : List (String × V) :=
  l.filter (fun e => decide (e.1 ≠ k))

theorem without_keys_sublist (k : String) (l : List (String × V)) :
    ((without k l).map Prod.fst).Sublist (l.map Prod.fst) :=
  (List.filter_sublist l).map Prod.fst

theorem not_mem_without_keys (k : String) (l : List (String × V)) :
    k ∉ (without k l).map Prod.fst := by
  intro h
  rcases List.mem_map.1 h with ⟨e, he, hk⟩
  have := (List.mem_filter.1 he).2
  simp [hk] at this

/-- Member function `erase`: drops the entry under the key, if there is one. -/
def erase (m : StdMap V) (k : String) : StdMap V :=
  ⟨without k m.entries, m.nodup.sublist (without_keys_sublist k m.entries)⟩

/-- The assignment `m[k] = v`: the entry under `k` now holds `v`. -/
def assign (m : StdMap V) (k : String) (v : V) : StdMap V :=
  ⟨(k, v) :: without k m.entries,
   by
     simp only [List.map_cons]
     exact List.nodup_cons.2
       ⟨not_mem_without_keys k m.entries, m.nodup.sublist (without_keys_sublist k m.entries)⟩⟩

/-- The mapped values, in iteration order. -/
def values (m : StdMap V) : List V := m.entries.map Prod.snd

/-- The keys, in iteration order. -/
def keys (m : StdMap V) : List String := m.entries.map Prod.fst

end StdMap

/-! ## Bodies, shapes and the dynamics world -/

/-- The geometry of a collision shape. -/
inductive ShapeGeometry where
  | capsuleZ (radius height : ℚ)
  | box (halfExtents : Vector3)
  | mesh (id : Nat)
  | heightfield (width length : Nat) (heights : List ℚ) (minHeight maxHeight : ℚ)
deriving DecidableEq

/-- A `btCollisionShape`: a geometry and the local scaling applied to it. -/
structure btCollisionShape where
  geometry : ShapeGeometry
  localScaling : Vector3
deriving DecidableEq

/-- Member function `setLocalScaling`. -/
def btCollisionShape.setLocalScaling (s : btCollisionShape) (v : Vector3) : btCollisionShape :=
  { s with localScaling := v }

/-- A `RigidBody` object, seen through a pointer to it: `addr` is the address of the object,
`mName` and `mPlaceable` are its members and `mWorldTransform` is the world transform of the
`btRigidBody` base. -/
structure RigidBody where
  addr : Nat
  mName : String
  mPlaceable : Bool
  mWorldTransform : btTransform
deriving DecidableEq

/-- The constructor `RigidBody(CI, name)` for an object placed at `addr`: `mPlaceable` starts
false and the transform is the identity start transform of the construction info. -/
def RigidBody.create (addr : Nat) (name : String) : RigidBody :=
  { addr := addr, mName := name, mPlaceable := false, mWorldTransform := btTransform.identity }

/-- Member function `setWorldTransform`. -/
def RigidBody.setWorldTransform (b : RigidBody) (tr : btTransform) : RigidBody :=
  { b with mWorldTransform := tr }

/-- One body registered in the dynamics world, with its collision filter group and mask. -/
structure Registration where
  body : RigidBody
  group : Nat
  mask : Nat
deriving DecidableEq

/-- The state of `btDiscreteDynamicsWorld` that the wrapper relies on: the registered bodies. -/
abbrev btDynamicsWorld := List Registration

namespace btDynamicsWorld

/-- The call `addRigidBody(body, group, mask)` of the dynamics world. -/
def addRigidBody (w : btDynamicsWorld) (body : RigidBody) (group mask : Nat) : btDynamicsWorld :=
  w ++ [⟨body, group, mask⟩]

/-- The call `removeRigidBody(body)` of the dynamics world on a body that exists: the body is
no longer registered afterwards.  Registrations are identified by the address of the body. -/
def removeRigidBody (w : btDynamicsWorld) (body : RigidBody) : btDynamicsWorld :=
  w.filter (fun r => decide (r.body.addr ≠ body.addr))

/-- The call `removeRigidBody(ptr)` of the dynamics world on a pointer that may be null.  The
dynamics world reads the broadphase handle of the object before unregistering it, so the call
is only defined on a pointer to an object; on a null pointer there is no resulting state. -/
def removeRigidBodyPtr (w : btDynamicsWorld) : Option RigidBody → Option btDynamicsWorld
  | some body => some (removeRigidBody w body)
  | none => none

/-- Whether a body (identified by its address) is registered. -/
def registered (w : btDynamicsWorld) (body : RigidBody) : Prop :=
  body.addr ∈ w.map (fun r => r.body.addr)

instance (w : btDynamicsWorld) (body : RigidBody) : Decidable (registered w body) :=
  inferInstanceAs (Decidable (_ ∈ _))

end btDynamicsWorld

/-! ## The actor, the height-field and the engine -/

/-- A `PhysicActor`.  `mBody` is assigned in the constructor and never reset, so an actor always
has its body and the tests `if(mBody)`, `assert(mBody)` of the source always pass. -/
structure PhysicActor where
  mName : String
  mMesh : String
  mBody : RigidBody
  mOnGround : Bool
  mInternalCollisionMode : Bool
  mExternalCollisionMode : Bool
  mForce : Vector3
  mScale : ℚ
  mHalfExtents : Vector3
  mMeshTranslation : Vector3
  mMeshOrientation : Quaternion
  mShape : btCollisionShape
  mPosition : Vector3
deriving DecidableEq

/-- A `HeightField`: two raw pointers, both null in a value-initialised object. -/
structure HeightField where
  mShape : Option btCollisionShape
  mBody : Option RigidBody
deriving DecidableEq

/-- The `PhysicEngine` together with the part of the heap it manages: `freed` lists the addresses
of the bodies on which `delete` was called, `nextAddr` is the address the next `new RigidBody`
returns.  No path of the engine stores a null pointer in the three pointer-valued maps
(`addRigidBody` guards both insertions and `addCharacter` stores a newly constructed actor), so an
entry holds the object itself and the `!= NULL` tests on entries always succeed. -/
structure PhysicEngine where
  mDynamicsWorld : btDynamicsWorld
  mCollisionObjectMap : StdMap RigidBody
  mRaycastingObjectMap : StdMap RigidBody
  mHeightFieldMap : StdMap HeightField
  mActorMap : StdMap PhysicActor
  freed : List Nat
  nextAddr : Nat

/-- The engine right after its constructor: nothing registered anywhere. -/
def PhysicEngine.create : PhysicEngine :=
  { mDynamicsWorld := [], mCollisionObjectMap := StdMap.empty, mRaycastingObjectMap := StdMap.empty,
    mHeightFieldMap := StdMap.empty, mActorMap := StdMap.empty, freed := [], nextAddr := 0 }

/-- The result of `NifBullet::getBoundingBox` when it succeeds. -/
structure BoundingBox where
  halfExtents : Vector3
  translation : Vector3
  orientation : Quaternion
deriving DecidableEq

namespace PhysicActor

/-- Member function `getPosition`. -/
def getPosition (a : PhysicActor) : Vector3 := a.mPosition

/-- Member function `getOnGround`. -/
def getOnGround (a : PhysicActor) : Bool := a.mOnGround

/-- Member function `setOnGround`. -/
def setOnGround (a : PhysicActor) (grounded : Bool) : PhysicActor := { a with mOnGround := grounded }

/-- Member function `setPosition`. -/
def setPosition (a : PhysicActor) (position : Vector3) : PhysicActor :=
  let tr := a.mBody.mWorldTransform
  let meshrot := a.mMeshOrientation
  let transrot := meshrot.rotate (a.mMeshTranslation.scale a.mScale)
  let newPosition := transrot.add position
  { a with mPosition := position,
           mBody := a.mBody.setWorldTransform { tr with origin := newPosition } }

/-- Member function `setRotation`. -/
def setRotation (a : PhysicActor) (rotation : Quaternion) : PhysicActor :=
  let tr := a.mBody.mWorldTransform
  { a with mBody := a.mBody.setWorldTransform
             { tr with rotation := a.mMeshOrientation.mul rotation } }

/-- Member function `setScale`. -/
def setScale (a : PhysicActor) (scale : ℚ) : PhysicActor :=
  let a1 := { a with mScale := scale,
                     mShape := a.mShape.setLocalScaling ⟨scale, scale, scale⟩ }
  a1.setPosition a1.mPosition

/-- The bounding data the constructor works with: that of the mesh, or the zero defaults when
`getBoundingBox` fails. -/
def boundsOrDefault : Option BoundingBox → BoundingBox
  | some bb => bb
  | none => ⟨Vector3.splat 0, Vector3.splat 0, Quaternion.IDENTITY⟩

/-- The shape the constructor creates for given half-extents (lines 32-38). -/
def selectShape (mHalfExtents : Vector3) : ShapeGeometry :=
  if |mHalfExtents.x - mHalfExtents.y| < mHalfExtents.x * 0.05 ∧ mHalfExtents.z ≥ mHalfExtents.x then
    ShapeGeometry.capsuleZ mHalfExtents.x (mHalfExtents.z * 2 - mHalfExtents.x * 2)
  else
    ShapeGeometry.box mHalfExtents

/-- The constructor, up to the registration of the body: `bounds` is what
`NifBullet::getBoundingBox` answers for the mesh and `addr` the address of the new body.
`mPosition` has no initialiser; it receives its value in the call of `setPosition`. -/
def construct (bounds : Option BoundingBox) (addr : Nat) (name mesh : String)
    (position : Vector3) (rotation : Quaternion) (scale : ℚ) : PhysicActor :=
  let bb := boundsOrDefault bounds
  let shape : btCollisionShape := ⟨selectShape bb.halfExtents, Vector3.splat 1⟩
  let a0 : PhysicActor :=
    { mName := name, mMesh := mesh,
      mBody := { RigidBody.create addr name with mPlaceable := false },
      mOnGround := false, mInternalCollisionMode := true, mExternalCollisionMode := true,
      mForce := Vector3.splat 0, mScale := scale,
      mHalfExtents := bb.halfExtents, mMeshTranslation := bb.translation,
      mMeshOrientation := bb.orientation,
      mShape := shape.setLocalScaling ⟨scale, scale, scale⟩,
      mPosition := Vector3.splat 0 }
  (a0.setPosition position).setRotation rotation

end PhysicActor

/-- What the shape manager holds for a mesh at a scale (a `BulletShape` resource): the two shape
pointers, null when the mesh has no such geometry, and the box offset of the mesh. -/
structure BulletShape where
  mCollisionShape : Option btCollisionShape
  mRaycastingShape : Option btCollisionShape
  mHasCollisionNode : Bool
  mBoxTranslation : Vector3
  mBoxRotation : Quaternion
deriving DecidableEq

/-- What `btCollisionWorld::ClosestRayResultCallback` holds once the ray query has run:
`m_collisionObject` is null when nothing was hit. -/
structure ClosestRayResultCallback where
  m_collisionObject : Option RigidBody
  m_closestHitFraction : ℚ
  m_hitNormalWorld : Vector3
deriving DecidableEq

/-- Member function `hasHit`. -/
def ClosestRayResultCallback.hasHit (cb : ClosestRayResultCallback) : Bool :=
  cb.m_collisionObject.isSome

/-- The ray query of the dynamics world on its current content: from the end points of the
segment and the filter group and mask of the callback to the filled-in callback. -/
abbrev RayQuery := Vector3 → Vector3 → Nat → Nat → ClosestRayResultCallback

/-- Decimal digit character. -/
def digitChar (d : Nat) : Char := Char.ofNat (48 + d)

/-- Decimal rendering of a natural number, most significant digit first. -/
def natDecimal (n : Nat) : List Char :=
  if n = 0 then ['0'] else (Nat.digits 10 n).reverse.map digitChar

/-- The conversion `boost::lexical_cast<std::string>(int)`: decimal, with a leading minus sign
for a negative number. -/
def lexical_cast (x : Int) : String :=
  String.mk (if x < 0 then '-' :: natDecimal x.natAbs else natDecimal x.natAbs)

/-- The name under which the height-field of a grid cell is kept (lines 288-290, 329-331). -/
def heightFieldName (x y : Int) : String :=
  "HeightField_" ++ lexical_cast x ++ "_" ++ lexical_cast y

namespace PhysicEngine

/-- The constructor of `PhysicActor` run against the engine: builds the actor around a new body
and registers that body in the dynamics world (lines 18-52). -/
def newPhysicActor (e : PhysicEngine) (getBoundingBox : String → Option BoundingBox)
    (name mesh : String) (position : Vector3) (rotation : Quaternion) (scale : ℚ) :
    PhysicActor × PhysicEngine :=
  let a := PhysicActor.construct (getBoundingBox mesh) e.nextAddr name mesh position rotation scale
  (a, { e with
        nextAddr := e.nextAddr + 1,
        mDynamicsWorld := e.mDynamicsWorld.addRigidBody a.mBody CollisionType_Actor
          (CollisionType_Actor ||| CollisionType_World ||| CollisionType_HeightMap) })

/-- The destructor of `PhysicActor` run against the engine (lines 54-61). -/
def deletePhysicActor (e : PhysicEngine) (a : PhysicActor) : PhysicEngine :=
  { e with
    mDynamicsWorld := e.mDynamicsWorld.removeRigidBody a.mBody,
    freed := e.freed ++ [a.mBody.addr] }

/-- The scan for the least and greatest sample (lines 293-301); `heights` holds the
`sqrtVerts * sqrtVerts` samples the pointer refers to and `heights[i]` is its `i`-th element. -/
def heightRange (heights : List ℚ) (sqrtVerts : Nat) : ℚ × ℚ :=
  (List.range (sqrtVerts * sqrtVerts)).foldl
    (fun (acc : ℚ × ℚ) i =>
      let h := heights.getD i 0
      let maxh := if h > acc.2 then h else acc.2
      let minh := if h < acc.1 then h else acc.1
      (minh, maxh))
    (heights.getD 0 0, heights.getD 0 0)

/-- Member function `addHeightField`; `sqrtVerts` is the whole number of samples per side. -/
def addHeightField (e : PhysicEngine) (heights : List ℚ) (x y : Int) (_yoffset : ℚ)
    (triSize : ℚ) (sqrtVerts : Nat) : PhysicEngine :=
  let name := heightFieldName x y
  let minh := (heightRange heights sqrtVerts).1
  let maxh := (heightRange heights sqrtVerts).2
  let hfShape : btCollisionShape :=
    ⟨ShapeGeometry.heightfield sqrtVerts sqrtVerts heights minh maxh, Vector3.splat 1⟩
  let hfShape := hfShape.setLocalScaling ⟨triSize, triSize, 1⟩
  let body := RigidBody.create e.nextAddr name
  let body := body.setWorldTransform
    { body.mWorldTransform with
      origin := ⟨((x : ℚ) + 0.5) * triSize * ((sqrtVerts : ℚ) - 1),
                 ((y : ℚ) + 0.5) * triSize * ((sqrtVerts : ℚ) - 1),
                 (maxh + minh) / 2⟩ }
  let hf : HeightField := { mBody := some body, mShape := some hfShape }
  { e with
    nextAddr := e.nextAddr + 1,
    mHeightFieldMap := e.mHeightFieldMap.assign name hf,
    mDynamicsWorld := e.mDynamicsWorld.addRigidBody body CollisionType_HeightMap
      (CollisionType_World ||| CollisionType_Actor ||| CollisionType_Raycasting) }

/-- Member function `removeHeightField`.  `mHeightFieldMap[name]` yields the entry under the
name, inserting a value-initialised one when there is none; the body pointer of that entry is
handed to the dynamics world unchecked, so the call has a resulting state only when the pointer
is not null. -/
def removeHeightField (e : PhysicEngine) (x y : Int) : Option PhysicEngine :=
  let name := heightFieldName x y
  let hf : HeightField :=
    match e.mHeightFieldMap.find name with
    | some hf => hf
    | none => { mShape := none, mBody := none }
  match e.mDynamicsWorld.removeRigidBodyPtr hf.mBody with
  | none => none
  | some world =>
    some { e with
           mDynamicsWorld := world,
           freed := e.freed ++ (hf.mBody.map (fun b => b.addr)).toList,
           mHeightFieldMap := e.mHeightFieldMap.erase name }

/-- Member function `adjustRigidBody`. -/
def adjustRigidBody (body : RigidBody) (position : Vector3) (rotation : Quaternion)
    (scaledBoxTranslation : Vector3) (boxRotation : Quaternion) : RigidBody :=
  let boxrot := rotation.mul boxRotation
  let transrot := boxrot.rotate scaledBoxTranslation
  let newPosition := transrot.add position
  body.setWorldTransform
    { origin := ⟨newPosition.x, newPosition.y, newPosition.z⟩,
      rotation := ⟨boxrot.w, boxrot.x, boxrot.y, boxrot.z⟩ }

/-- What a call of `createAndAdjustRigidBody` leaves behind: the returned pointer, the shape
resource (whose shapes the call rescales), the two output cells and the engine. -/
structure CreateResult where
  body : Option RigidBody
  shape : BulletShape
  scaledBoxTranslation : Option Vector3
  boxRotation : Option Quaternion
  engine : PhysicEngine

/-- Member function `createAndAdjustRigidBody`, from the point where the shape resource of the
mesh at this scale has been fetched from the shape manager (`shape`).  The output cells
`scaledBoxTranslation` and `boxRotation` are `none` for a null pointer. -/
def createAndAdjustRigidBody (e : PhysicEngine) (shape : BulletShape) (name : String) (scale : ℚ)
    (position : Vector3) (rotation : Quaternion)
    (scaledBoxTranslation : Option Vector3) (boxRotation : Option Quaternion)
    (raycasting placeable : Bool) : CreateResult :=
  let absent : CreateResult := ⟨none, shape, scaledBoxTranslation, boxRotation, e⟩
  if placeable && !raycasting && shape.mCollisionShape.isSome && !shape.mHasCollisionNode then
    absent
  else if !shape.mCollisionShape.isSome && !raycasting then
    absent
  else if !shape.mRaycastingShape.isSome && raycasting then
    absent
  else
    let shape1 : BulletShape :=
      if !raycasting then
        { shape with mCollisionShape :=
            shape.mCollisionShape.map (fun s => s.setLocalScaling ⟨scale, scale, scale⟩) }
      else
        { shape with mRaycastingShape :=
            shape.mRaycastingShape.map (fun s => s.setLocalScaling ⟨scale, scale, scale⟩) }
    let body := RigidBody.create e.nextAddr name
    let body := { body with mPlaceable := placeable }
    let out1 := scaledBoxTranslation.map (fun _ => shape1.mBoxTranslation.scale scale)
    let out2 := boxRotation.map (fun _ => shape1.mBoxRotation)
    let body := adjustRigidBody body position rotation (shape1.mBoxTranslation.scale scale)
      shape1.mBoxRotation
    ⟨some body, shape1, out1, out2, { e with nextAddr := e.nextAddr + 1 }⟩

/-- Member function `removeRigidBody`. -/
def removeRigidBody (e : PhysicEngine) (name : String) : PhysicEngine :=
  let e1 :=
    match e.mCollisionObjectMap.find name with
    | some body => { e with mDynamicsWorld := e.mDynamicsWorld.removeRigidBody body }
    | none => e
  match e1.mRaycastingObjectMap.find name with
  | some body => { e1 with mDynamicsWorld := e1.mDynamicsWorld.removeRigidBody body }
  | none => e1

/-- Member function `deleteRigidBody`. -/
def deleteRigidBody (e : PhysicEngine) (name : String) : PhysicEngine :=
  let e1 :=
    match e.mCollisionObjectMap.find name with
    | some body =>
      { e with freed := e.freed ++ [body.addr],
               mCollisionObjectMap := e.mCollisionObjectMap.erase name }
    | none => e
  match e1.mRaycastingObjectMap.find name with
  | some body =>
    { e1 with freed := e1.freed ++ [body.addr],
              mRaycastingObjectMap := e1.mRaycastingObjectMap.erase name }
  | none => e1

/-- The addresses of the bodies held under a name, in either map. -/
def addrsUnder (e : PhysicEngine) (n : String) : List Nat :=
  ((e.mCollisionObjectMap.find n).toList ++ (e.mRaycastingObjectMap.find n).toList).map
    (fun b => b.addr)

/-- The registration of the bodies passed to `addRigidBody` in the dynamics world
(lines 417-422). -/
def registerBodies (e : PhysicEngine) (body raycastingBody : Option RigidBody) : PhysicEngine :=
  let e1 :=
    match body with
    | some b =>
      { e with
        mDynamicsWorld := e.mDynamicsWorld.addRigidBody b CollisionType_World
          (CollisionType_World ||| CollisionType_Actor ||| CollisionType_HeightMap) }
    | none => e
  match raycastingBody with
  | some rb =>
    { e1 with
      mDynamicsWorld := e1.mDynamicsWorld.addRigidBody rb CollisionType_Raycasting
        CollisionType_Raycasting }
  | none => e1

/-- The statements of `addRigidBody` from line 417 on, for a call during which the string `name`
stays readable: the registration, and with `addToMap` the eviction of the entries under `name`
followed by the two stores. -/
def addRigidBodySteps (e : PhysicEngine) (name : String) (body : Option RigidBody)
    (addToMap : Bool) (raycastingBody : Option RigidBody) : PhysicEngine :=
  let e2 := e.registerBodies body raycastingBody
  if addToMap then
    let e3 := e2.removeRigidBody name
    let e4 := e3.deleteRigidBody name
    let e5 :=
      match body with
      | some b => { e4 with mCollisionObjectMap := e4.mCollisionObjectMap.assign name b }
      | none => e4
    match raycastingBody with
    | some rb => { e5 with mRaycastingObjectMap := e5.mRaycastingObjectMap.assign name rb }
    | none => e5
  else e2

/-- Member function `addRigidBody`.  `name` is a reference to the member `mName` of `body`, or of
`raycastingBody` when `body` is null (line 415).  With `addToMap`, `deleteRigidBody(name)` deletes
the bodies held under that name; when the body `name` refers into is itself one of them, the
freed string is read by the rest of `deleteRigidBody` or by the stores of lines 428-431, a use
after `delete`: the call then has no resulting state. -/
def addRigidBody (e : PhysicEngine) (body : Option RigidBody) (addToMap : Bool)
    (raycastingBody : Option RigidBody) : Option PhysicEngine :=
  match body, raycastingBody with
  | none, none => some e
  | some b, rb =>
    if addToMap = true ∧ b.addr ∈ e.addrsUnder b.mName then none
    else some (addRigidBodySteps e b.mName (some b) addToMap rb)
  | none, some rb =>
    if addToMap = true ∧ rb.addr ∈ e.addrsUnder rb.mName then none
    else some (addRigidBodySteps e rb.mName none addToMap (some rb))

/-- Member function `getRigidBody`.  `(*map)[name]` is evaluated only when `find` has found the
key, so the lookup never inserts an entry and the engine is not modified. -/
def getRigidBody (e : PhysicEngine) (name : String) (raycasting : Bool) : Option RigidBody :=
  let map := if raycasting then e.mRaycastingObjectMap else e.mCollisionObjectMap
  match map.find name with
  | some body => some body
  | none => none

/-- Member function `removeCharacter`. -/
def removeCharacter (e : PhysicEngine) (name : String) : PhysicEngine :=
  match e.mActorMap.find name with
  | some act =>
    let e1 := e.deletePhysicActor act
    { e1 with mActorMap := e1.mActorMap.erase name }
  | none => e

/-- Member function `addCharacter`; `getBoundingBox` is `NifBullet::getBoundingBox`. -/
def addCharacter (e : PhysicEngine) (getBoundingBox : String → Option BoundingBox)
    (name mesh : String) (position : Vector3) (scale : ℚ) (rotation : Quaternion) : PhysicEngine :=
  let e1 := e.removeCharacter name
  let (newActor, e2) := e1.newPhysicActor getBoundingBox name mesh position rotation scale
  { e2 with mActorMap := e2.mActorMap.assign name newActor }

/-- Member function `getCharacter`.  `mActorMap[name]` is evaluated only when `find` has found
the key, so the lookup never inserts an entry and the engine is not modified. -/
def getCharacter (e : PhysicEngine) (name : String) : Option PhysicActor :=
  match e.mActorMap.find name with
  | some act => some act
  | none => none

/-- The filter mask `rayTest` gives its callback (lines 676-682). -/
def rayTestMask (raycastingObjectOnly ignoreHeightMap : Bool) : Nat :=
  let mask :=
    if raycastingObjectOnly then CollisionType_Raycasting ||| CollisionType_Actor
    else CollisionType_World
  if !ignoreHeightMap then mask ||| CollisionType_HeightMap else mask

/-- Member function `rayTest`; `query` is the ray query of the dynamics world, `normal` the
content of the caller's output cell (`none` for a null pointer).  The result is the returned
pair together with the content of the output cell after the call. -/
def rayTest (query : RayQuery) (from_ to_ : Vector3) (raycastingObjectOnly ignoreHeightMap : Bool)
    (normal : Option Vector3) : (String × ℚ) × Option Vector3 :=
  let name := ""
  let d : ℚ := -1
  let resultCallback1 := query from_ to_ 0xff (rayTestMask raycastingObjectOnly ignoreHeightMap)
  match resultCallback1.m_collisionObject with
  | some obj =>
    ((obj.mName, resultCallback1.m_closestHitFraction),
      normal.map (fun _ => ⟨resultCallback1.m_hitNormalWorld.x, resultCallback1.m_hitNormalWorld.y,
        resultCallback1.m_hitNormalWorld.z⟩))
  | none => ((name, d), normal)

/-- The loop of `isAnyActorStandingOn` over the entries of the actor map.  The two flags are the
default arguments `rayTest(from, to)` is called with; they are declared in `physic.hpp`. -/
def isAnyActorStandingOnLoop (query : RayQuery) (raycastingObjectOnly ignoreHeightMap : Bool)
    (objectName : String) : List (String × PhysicActor) → Bool
  | [] => false
  | (_, actor) :: rest =>
    if !actor.getOnGround then
      isAnyActorStandingOnLoop query raycastingObjectOnly ignoreHeightMap objectName rest
    else
      let pos := actor.getPosition
      let from_ : Vector3 := ⟨pos.x, pos.y, pos.z⟩
      let to_ := from_.sub ⟨0, 0, 5⟩
      let result := rayTest query from_ to_ raycastingObjectOnly ignoreHeightMap none
      if result.1.1 = objectName then true
      else isAnyActorStandingOnLoop query raycastingObjectOnly ignoreHeightMap objectName rest

/-- Member function `isAnyActorStandingOn`. -/
def isAnyActorStandingOn (e : PhysicEngine) (query : RayQuery)
    (raycastingObjectOnly ignoreHeightMap : Bool) (objectName : String) : Bool :=
  isAnyActorStandingOnLoop query raycastingObjectOnly ignoreHeightMap objectName e.mActorMap.entries

end PhysicEngine

/-! ## Sequences of calls -/

/-- One call of the three rigid-body mutations. -/
inductive RigidBodyCall where
  | add (body : Option RigidBody) (addToMap : Bool) (raycastingBody : Option RigidBody)
  | remove (name : String)
  | delete (name : String)
deriving DecidableEq

/-- The engine after one call, when the call has a resulting state. -/
def RigidBodyCall.apply (e : PhysicEngine) : RigidBodyCall → Option PhysicEngine
  | .add body addToMap raycastingBody => e.addRigidBody body addToMap raycastingBody
  | .remove name => some (e.removeRigidBody name)
  | .delete name => some (e.deleteRigidBody name)

/-- The engine after a sequence of calls, first call first, when every call of the sequence has
a resulting state. -/
def PhysicEngine.afterCalls (e : PhysicEngine) : List RigidBodyCall → Option PhysicEngine
  | [] => some e
  | c :: rest =>
    match c.apply e with
    | some e1 => PhysicEngine.afterCalls e1 rest
    | none => none

/-- The arguments of one `addCharacter` call. -/
structure CharacterCall where
  name : String
  mesh : String
  position : Vector3
  scale : ℚ
  rotation : Quaternion
deriving DecidableEq

/-- The engine after a sequence of `addCharacter` calls, first call first. -/
def PhysicEngine.afterCharacters (e : PhysicEngine) (getBoundingBox : String → Option BoundingBox)
    (calls : List CharacterCall) : PhysicEngine :=
  calls.foldl (fun e c => e.addCharacter getBoundingBox c.name c.mesh c.position c.scale c.rotation)
    e

/-! ## Consistency of registration and bookkeeping -/

/-- The addresses of the bodies registered in the dynamics world. -/
def PhysicEngine.registeredAddrs (e : PhysicEngine) : List Nat :=
  e.mDynamicsWorld.map (fun r => r.body.addr)

/-- The addresses of the bodies held in the solid and the raycast map. -/
def PhysicEngine.heldAddrs (e : PhysicEngine) : List Nat :=
  (e.mCollisionObjectMap.values ++ e.mRaycastingObjectMap.values).map (fun b => b.addr)

/-- The bodies registered in the dynamics world are exactly the bodies held in the two maps. -/
def PhysicEngine.Consistent (e : PhysicEngine) : Prop :=
  ∀ a : Nat, a ∈ e.registeredAddrs ↔ a ∈ e.heldAddrs

instance (e : PhysicEngine) : Decidable e.Consistent :=
  decidable_of_iff
    ((∀ a ∈ e.registeredAddrs, a ∈ e.heldAddrs) ∧ (∀ a ∈ e.heldAddrs, a ∈ e.registeredAddrs))
    ⟨fun h a => ⟨h.1 a, h.2 a⟩, fun h => ⟨fun a => (h a).1, fun a => (h a).2⟩⟩

/-- The addresses of the bodies held under the names other than `n`, in either map. -/
def PhysicEngine.addrsElsewhere (e : PhysicEngine) (n : String) : List Nat :=
  ((StdMap.without n e.mCollisionObjectMap.entries ++
    StdMap.without n e.mRaycastingObjectMap.entries).map Prod.snd).map (fun b => b.addr)

/-- No body held under `n` is also held under another name. -/
def PhysicEngine.Unshared (e : PhysicEngine) (n : String) : Prop :=
  ∀ a ∈ e.addrsUnder n, a ∉ e.addrsElsewhere n

instance (e : PhysicEngine) (n : String) : Decidable (e.Unshared n) :=
  inferInstanceAs (Decidable (∀ a ∈ _, _))

/-- Every address in use by a registered body or by the body of an actor lies below the
address the next `new RigidBody` returns: `new` never returns the address of a live object. -/
def PhysicEngine.HeapOk (e : PhysicEngine) : Prop :=
  (∀ r ∈ e.mDynamicsWorld, r.body.addr < e.nextAddr) ∧
  (∀ p ∈ e.mActorMap.entries, p.2.mBody.addr < e.nextAddr)

instance (e : PhysicEngine) : Decidable e.HeapOk :=
  inferInstanceAs (Decidable (_ ∧ _))

/-- The number of registered bodies named `n` among those allocated at address `base` or
later. -/
def PhysicEngine.registeredSince (e : PhysicEngine) (base : Nat) (n : String) : Nat :=
  (e.mDynamicsWorld.filter
    (fun r => decide (base ≤ r.body.addr) && decide (r.body.mName = n))).length

/-- The bookkeeping of the actors created since the allocator stood at `base`, `added` being
the names passed to `addCharacter` since then. -/
structure PhysicEngine.ActorsTracked (base : Nat) (added : List String) (e : PhysicEngine) :
    Prop where
  heap : e.HeapOk
  base_le : base ≤ e.nextAddr
  owner : ∀ r ∈ e.mDynamicsWorld, base ≤ r.body.addr →
    ∃ a, e.mActorMap.find r.body.mName = some a ∧ a.mBody.addr = r.body.addr
  distinct : ∀ (m m' : String) (a a' : PhysicActor), e.mActorMap.find m = some a →
    e.mActorMap.find m' = some a' → base ≤ a.mBody.addr → a.mBody.addr = a'.mBody.addr → m = m'
  count : ∀ m : String, e.registeredSince base m = if m ∈ added then 1 else 0

/-! ## Sample states -/

/-- A world holding one object, "crate", with a solid body at address 0 and a raycast body at
address 1. -/
def crateWorld : PhysicEngine :=
  (PhysicEngine.create.addRigidBody (some (RigidBody.create 0 "crate")) true
    (some (RigidBody.create 1 "crate"))).getD PhysicEngine.create

/-- The caller-side statement `getCharacter(name)->setOnGround(grounded)`. -/
def PhysicEngine.setActorOnGround (e : PhysicEngine) (name : String) (grounded : Bool) :
    PhysicEngine :=
  match e.getCharacter name with
  | some act => { e with mActorMap := e.mActorMap.assign name (act.setOnGround grounded) }
  | none => e

/-- A world holding one object, "crate", with a solid body only. -/
def solidCrateWorld : PhysicEngine :=
  (PhysicEngine.create.addRigidBody (some (RigidBody.create 0 "crate")) true none).getD
    PhysicEngine.create

/-- A world with one actor, "npc", at height 10 and flagged on-ground. -/
def groundedWorld : PhysicEngine :=
  (PhysicEngine.create.addCharacter (fun _ => none) "npc" "npc.nif" ⟨0, 0, 10⟩ 1
    Quaternion.IDENTITY).setActorOnGround "npc" true

/-- Three `addCharacter` calls, two of them for "npc". -/
def npcCalls : List CharacterCall :=
  [⟨"npc", "npc.nif", ⟨0, 0, 10⟩, 1, Quaternion.IDENTITY⟩,
   ⟨"guard", "guard.nif", ⟨5, 0, 0⟩, 1, Quaternion.IDENTITY⟩,
   ⟨"npc", "npc.nif", ⟨1, 2, 3⟩, 2, Quaternion.IDENTITY⟩]

/-- A ray query that hits nothing: the callback is left as constructed. -/
def nothingHit : RayQuery := fun _ _ _ _ => ⟨none, 1, ⟨0, 0, 0⟩⟩

/-- A ray query whose nearest hit is always a body named "floor", half way along the segment. -/
def floorHit : RayQuery := fun _ _ _ _ => ⟨some (RigidBody.create 7 "floor"), 1 / 2, ⟨0, 0, 1⟩⟩

/-! ## Sequences of actor calls -/

/-- One call of the three transform mutators of `PhysicActor`. -/
inductive ActorCall where
  | setPosition (position : Vector3)
  | setRotation (rotation : Quaternion)
  | setScale (scale : ℚ)
deriving DecidableEq

/-- The actor after one call. -/
def ActorCall.apply (a : PhysicActor) : ActorCall → PhysicActor
  | .setPosition position => a.setPosition position
  | .setRotation rotation => a.setRotation rotation
  | .setScale scale => a.setScale scale

/-- The actor after a sequence of calls, first call first. -/
def PhysicActor.afterCalls (a : PhysicActor) (calls : List ActorCall) : PhysicActor :=
  calls.foldl ActorCall.apply a

/-- The position supplied last: by the last `setPosition` of the sequence, or `init` when the
sequence has none. -/
def ActorCall.lastPosition (init : Vector3) (calls : List ActorCall) : Vector3 :=
  calls.foldl (fun p c => match c with | .setPosition q => q | _ => p) init

/-- The rotation supplied last: by the last `setRotation` of the sequence, or `init`. -/
def ActorCall.lastRotation (init : Quaternion) (calls : List ActorCall) : Quaternion :=
  calls.foldl (fun r c => match c with | .setRotation q => q | _ => r) init

/-- The scale supplied last: by the last `setScale` of the sequence, or `init`. -/
def ActorCall.lastScale (init : ℚ) (calls : List ActorCall) : ℚ :=
  calls.foldl (fun s c => match c with | .setScale t => t | _ => s) init

/-! ## Collision bodies of actors and the masks of the categories -/

/-- Member function `PhysicActor::disableCollisionBody()`, run against the engine
(lines 125-130). -/
def PhysicEngine.disableCollisionBody (e : PhysicEngine) (a : PhysicActor) : PhysicEngine :=
  { e with
    mDynamicsWorld :=
      (e.mDynamicsWorld.removeRigidBody a.mBody).addRigidBody a.mBody CollisionType_Actor
        CollisionType_Raycasting }

/-- Member function `PhysicActor::enableCollisionBody()`, run against the engine
(lines 132-137). -/
def PhysicEngine.enableCollisionBody (e : PhysicEngine) (a : PhysicActor) : PhysicEngine :=
  { e with
    mDynamicsWorld :=
      (e.mDynamicsWorld.removeRigidBody a.mBody).addRigidBody a.mBody CollisionType_Actor
        (CollisionType_Actor ||| CollisionType_World ||| CollisionType_HeightMap) }

/-- Member function `PhysicActor::enableCollisionBody(bool collision)`, run against the engine
(lines 68-74). -/
def PhysicEngine.setCollisionBody (e : PhysicEngine) (a : PhysicActor) (collision : Bool) :
    PhysicActor × PhysicEngine :=
  let e1 := if collision && !a.mExternalCollisionMode then e.enableCollisionBody a else e
  let e2 := if !collision && a.mExternalCollisionMode then e1.disableCollisionBody a else e1
  ({ a with mExternalCollisionMode := collision }, e2)

/-- The fixed collision mask the specification gives each category: actors collide with
actors, world and height-map; world bodies with world, actors and height-map; the height-map
with world, actors and raycasting; raycasting bodies with raycasting only. -/
def categoryMask (group : Nat) : Nat :=
  if group = CollisionType_Actor then
    CollisionType_Actor ||| CollisionType_World ||| CollisionType_HeightMap
  else if group = CollisionType_World then
    CollisionType_World ||| CollisionType_Actor ||| CollisionType_HeightMap
  else if group = CollisionType_HeightMap then
    CollisionType_World ||| CollisionType_Actor ||| CollisionType_Raycasting
  else if group = CollisionType_Raycasting then
    CollisionType_Raycasting
  else 0

/-- A registration carries the fixed mask of its category. -/
def Registration.hasCategoryMask (r : Registration) : Prop :=
  (r.group = CollisionType_Actor ∨ r.group = CollisionType_World ∨
    r.group = CollisionType_HeightMap ∨ r.group = CollisionType_Raycasting) ∧
  r.mask = categoryMask r.group

instance (r : Registration) : Decidable r.hasCategoryMask :=
  inferInstanceAs (Decidable (_ ∧ _))

/-- Every registration present after a step was there before it or carries the fixed mask of
its category. -/
def registersWithCategoryMask (before after : btDynamicsWorld) : Prop :=
  ∀ r ∈ after, r ∈ before ∨ r.hasCategoryMask

instance (before after : btDynamicsWorld) : Decidable (registersWithCategoryMask before after) :=
  inferInstanceAs (Decidable (∀ r ∈ _, _))

/-! ## Contact and sweep queries -/

/-- A `btCollisionObject` as the callbacks see it: what `dynamic_cast<const RigidBody*>` yields
(`none` when the object is not a `RigidBody`) and the filter group of its broadphase handle. -/
structure CollisionObject where
  asRigidBody : Option RigidBody
  m_collisionFilterGroup : Nat
deriving DecidableEq

/-- One contact point handed to a contact callback: the two objects and the position of the
point on the first of them (`cp.getPositionWorldOnA()`). -/
structure ContactPoint where
  col0 : CollisionObject
  col1 : CollisionObject
  positionWorldOnA : Vector3
deriving DecidableEq

/-- The member `addSingleResult` of `ContactTestResultCallback`, on the member `mResult`
(lines 506-516 and 518-527, the two variants do the same). -/
def ContactTestResultCallback.addSingleResult (mResult : List String) (cp : ContactPoint) :
    List String :=
  match cp.col0.asRigidBody with
  | some body =>
    if cp.col0.m_collisionFilterGroup &&& CollisionType_Raycasting = 0 then
      mResult ++ [body.mName]
    else mResult
  | none => mResult

/-- Member function `getCollisions`; `contactTest` is the contact test of the dynamics world on
its current content, listing the contact points in the order the callback receives them.  The
contact test reads the object it is given, so there is a result only when a body is held under
the name in one of the two maps. -/
def PhysicEngine.getCollisions (e : PhysicEngine) (contactTest : RigidBody → List ContactPoint)
    (name : String) : Option (List String) :=
  let body :=
    match e.getRigidBody name false with
    | some b => some b
    | none => e.getRigidBody name true
  match body with
  | some b => some ((contactTest b).foldl ContactTestResultCallback.addSingleResult [])
  | none => none

/-- The squared distance `btVector3::distance2`. -/
def Vector3.distance2 (a b : Vector3) : ℚ :=
  (b.x - a.x) * (b.x - a.x) + (b.y - a.y) * (b.y - a.y) + (b.z - a.z) * (b.z - a.z)

/-- The members of `DeepestNotMeContactTestResultCallback` that change during the test. -/
structure DeepestNotMeContactTestResultCallback where
  mObject : Option RigidBody
  mContactPoint : Vector3
  mLeastDistSqr : ℚ
deriving DecidableEq

/-- The constructor of the callback (lines 542-545); the last member starts at
`std::numeric_limits<float>::max()`. -/
def DeepestNotMeContactTestResultCallback.create : DeepestNotMeContactTestResultCallback :=
  { mObject := none, mContactPoint := ⟨0, 0, 0⟩,
    mLeastDistSqr := 340282346638528859811704183484516925440 }

/-- The member `addSingleResult` of `DeepestNotMeContactTestResultCallback` (lines 548-565 and
567-584, the two variants do the same). -/
def DeepestNotMeContactTestResultCallback.addSingleResult
    (cb : DeepestNotMeContactTestResultCallback) (mFilter : String) (mOrigin : Vector3)
    (cp : ContactPoint) : DeepestNotMeContactTestResultCallback :=
  match cp.col1.asRigidBody with
  | some body =>
    if body.mName ≠ mFilter then
      let distsqr := mOrigin.distance2 cp.positionWorldOnA
      if cb.mObject.isNone ∨ distsqr < cb.mLeastDistSqr then
        { mObject := some body, mLeastDistSqr := distsqr, mContactPoint := cp.positionWorldOnA }
      else cb
    else cb
  | none => cb

/-- Member function `getFilteredContact`; `contacts` are the contact points the contact test of
the dynamics world hands to the callback for `object`, in order. -/
def PhysicEngine.getFilteredContact (filter : String) (origin : Vector3)
    (contacts : List ContactPoint) : Option RigidBody × Vector3 :=
  let callback := contacts.foldl
    (fun cb cp => cb.addSingleResult filter origin cp) DeepestNotMeContactTestResultCallback.create
  (callback.mObject, callback.mContactPoint)

/-- One hit handed to a convex sweep callback (`btCollisionWorld::LocalConvexResult`). -/
structure LocalConvexResult where
  m_hitCollisionObject : CollisionObject
  m_hitFraction : ℚ
deriving DecidableEq

/-- The members of `btCollisionWorld::ClosestConvexResultCallback` that `sphereCast` reads. -/
structure ClosestConvexResultCallback where
  m_hitCollisionObject : Option CollisionObject
  m_closestHitFraction : ℚ
deriving DecidableEq

/-- The callback as constructed: no hit object, closest fraction 1. -/
def ClosestConvexResultCallback.create : ClosestConvexResultCallback :=
  { m_hitCollisionObject := none, m_closestHitFraction := 1 }

/-- Member function `hasHit`. -/
def ClosestConvexResultCallback.hasHit (cb : ClosestConvexResultCallback) : Bool :=
  cb.m_hitCollisionObject.isSome

/-- The member `addSingleResult` of the base class `ClosestConvexResultCallback`: the hit becomes
the recorded closest hit and its fraction is returned. -/
def ClosestConvexResultCallback.addSingleResult (_cb : ClosestConvexResultCallback)
    (convexResult : LocalConvexResult) : ℚ × ClosestConvexResultCallback :=
  (convexResult.m_hitFraction,
    { m_hitCollisionObject := some convexResult.m_hitCollisionObject,
      m_closestHitFraction := convexResult.m_hitFraction })

/-- The member `addSingleResult` of `OurClosestConvexResultCallback` (lines 704-710). -/
def OurClosestConvexResultCallback.addSingleResult (cb : ClosestConvexResultCallback)
    (convexResult : LocalConvexResult) : ℚ × ClosestConvexResultCallback :=
  match convexResult.m_hitCollisionObject.asRigidBody with
  | some body =>
    if body.mName = "player" then (0, cb)
    else ClosestConvexResultCallback.addSingleResult cb convexResult
  | none => ClosestConvexResultCallback.addSingleResult cb convexResult

/-- Member function `sphereCast`; `hits` are the hits the convex sweep of the dynamics world
hands to the callback, in order. -/
def PhysicEngine.sphereCast (hits : List LocalConvexResult) : Bool × ℚ :=
  let callback := hits.foldl
    (fun cb h => (OurClosestConvexResultCallback.addSingleResult cb h).2)
    ClosestConvexResultCallback.create
  if callback.hasHit then (true, callback.m_closestHitFraction) else (false, 1)

/-- A hit is on a body named "player". -/
def LocalConvexResult.onPlayer (h : LocalConvexResult) : Bool :=
  match h.m_hitCollisionObject.asRigidBody with
  | some body => decide (body.mName = "player")
  | none => false

/-- Modelled from the spec: the comparison `MyRayResultCallback::cmp` is declared in
`physic.hpp`, which is not among the sources; the results are "sorted ascending by fraction", so
one pair comes before another when its fraction is smaller. -/
def MyRayResultCallback.cmp (i j : ℚ × String) : Bool := decide (i.1 < j.1)

/-- The call `std::sort(first, last, comp)`: the elements rearranged so that no element is
followed by one that `comp` puts before it. -/
def stdSort {α : Type} (comp : α → α → Bool) (l : List α) : List α :=
  l.insertionSort (fun a b => comp b a = false)

/-- Member function `rayTest2`; `results` is the member `results` of the callback after the ray
query of the dynamics world, each hit fraction with the object hit. -/
def PhysicEngine.rayTest2 (results : List (ℚ × RigidBody)) : List (ℚ × String) :=
  let results2 := results.foldl (fun acc it => acc ++ [(it.1, it.2.mName)]) []
  stdSort MyRayResultCallback.cmp results2

/-- The name a contact point adds to the result of `getCollisions`, if it adds one: that of its
first object when this is a `RigidBody` whose filter group has no Raycasting bit. -/
def ContactPoint.reportedName (cp : ContactPoint) : Option String :=
  match cp.col0.asRigidBody with
  | some body =>
    if cp.col0.m_collisionFilterGroup &&& CollisionType_Raycasting = 0 then some body.mName
    else none
  | none => none

/-- A contact test that reports two contact points, both on the world body "wall". -/
def wallTwice : RigidBody → List ContactPoint := fun _ =>
  [⟨⟨some (RigidBody.create 5 "wall"), CollisionType_World⟩,
     ⟨some (RigidBody.create 0 "crate"), CollisionType_World⟩, ⟨1, 0, 0⟩⟩,
   ⟨⟨some (RigidBody.create 5 "wall"), CollisionType_World⟩,
     ⟨some (RigidBody.create 0 "crate"), CollisionType_World⟩, ⟨1, 1, 0⟩⟩]

/-- What a contact point offers `getFilteredContact`, if anything: its second object, when this
is a `RigidBody` whose name differs from the filter, with the position of the contact. -/
def ContactPoint.candidate (filter : String) (cp : ContactPoint) : Option (RigidBody × Vector3) :=
  match cp.col1.asRigidBody with
  | some body => if body.mName ≠ filter then some (body, cp.positionWorldOnA) else none
  | none => none

namespace StdMap

variable {V : Type}

theorem ext_entries {m m' : StdMap V} (h : m.entries = m'.entries) : m = m' := by
  cases m; cases m'; cases h; rfl

theorem lookup_without_self (k : String) (l : List (String × V)) :
    lookup k (without k l) = none := by
  induction l with
  | nil => rfl
  | cons e rest ih =>
    by_cases h : e.1 = k
    · simpa [without, List.filter_cons, h] using ih
    · have : without k (e :: rest) = e :: without k rest := by
        simp [without, List.filter_cons, h]
      rw [this]
      obtain ⟨k', v⟩ := e
      simpa [lookup, h] using ih

theorem lookup_without_ne {k k' : String} (hne : k' ≠ k) (l : List (String × V)) :
    lookup k' (without k l) = lookup k' l := by
  induction l with
  | nil => rfl
  | cons e rest ih =>
    obtain ⟨k0, v⟩ := e
    by_cases h : k0 = k
    · have hk : k0 ≠ k' := fun h' => hne (h' ▸ h)
      have : without k ((k0, v) :: rest) = without k rest := by
        simp [without, List.filter_cons, h]
      simp [this, lookup, hk, ih]
    · have : without k ((k0, v) :: rest) = (k0, v) :: without k rest := by
        simp [without, List.filter_cons, h]
      simp [this, lookup, ih]

theorem without_of_lookup_none {k : String} {l : List (String × V)} (h : lookup k l = none) :
    without k l = l := by
  induction l with
  | nil => rfl
  | cons e rest ih =>
    obtain ⟨k0, v⟩ := e
    by_cases hk : k0 = k
    · simp [lookup, hk] at h
    · simp only [lookup, hk, if_false] at h
      have hr := ih h
      have : without k ((k0, v) :: rest) = (k0, v) :: without k rest := by
        simp [without, List.filter_cons, hk]
      rw [this, hr]

theorem find_erase_self (m : StdMap V) (k : String) : (m.erase k).find k = none :=
  lookup_without_self k m.entries

theorem find_erase_ne (m : StdMap V) {k k' : String} (hne : k' ≠ k) :
    (m.erase k).find k' = m.find k' :=
  lookup_without_ne hne m.entries

theorem find_assign_self (m : StdMap V) (k : String) (v : V) : (m.assign k v).find k = some v := by
  simp [find, assign, lookup]

theorem find_assign_ne (m : StdMap V) {k k' : String} (v : V) (hne : k' ≠ k) :
    (m.assign k v).find k' = m.find k' := by
  have hk : k ≠ k' := fun h => hne h.symm
  simp [find, assign, lookup, hk, lookup_without_ne hne]

theorem erase_of_find_none {m : StdMap V} {k : String} (h : m.find k = none) : m.erase k = m :=
  ext_entries (without_of_lookup_none h)

theorem lookup_eq_some_of_mem {k : String} {v : V} :
    ∀ {l : List (String × V)}, (l.map Prod.fst).Nodup → (k, v) ∈ l → lookup k l = some v
  | [], _, h => by cases h
  | (k0, v0) :: rest, hnd, h => by
    rw [List.map_cons, List.nodup_cons] at hnd
    rcases List.mem_cons.1 h with heq | hmem
    · cases heq
      simp [lookup]
    · have hk : k0 ≠ k := by
        intro hk
        apply hnd.1
        rw [hk]
        exact List.mem_map.2 ⟨(k, v), hmem, rfl⟩
      simp only [lookup, hk, if_false]
      exact lookup_eq_some_of_mem hnd.2 hmem

theorem mem_of_lookup_eq_some {k : String} {v : V} :
    ∀ {l : List (String × V)}, lookup k l = some v → (k, v) ∈ l
  | [], h => by cases h
  | (k0, v0) :: rest, h => by
    by_cases hk : k0 = k
    · simp only [lookup, hk, if_true, Option.some.injEq] at h
      rw [hk, h]
      exact List.mem_cons_self _ _
    · simp only [lookup, hk, if_false] at h
      exact List.mem_cons_of_mem _ (mem_of_lookup_eq_some h)

theorem find_eq_some_iff (m : StdMap V) (k : String) (v : V) :
    m.find k = some v ↔ (k, v) ∈ m.entries :=
  ⟨mem_of_lookup_eq_some, lookup_eq_some_of_mem m.nodup⟩

theorem find_eq_none_iff (m : StdMap V) (k : String) : m.find k = none ↔ k ∉ m.keys := by
  constructor
  · intro h hk
    rcases List.mem_map.1 hk with ⟨⟨k0, v⟩, hmem, hk0⟩
    simp only at hk0
    subst hk0
    rw [(find_eq_some_iff m k0 v).2 hmem] at h
    cases h
  · intro h
    cases hf : m.find k with
    | none => rfl
    | some v =>
      exact absurd (List.mem_map.2 ⟨(k, v), (find_eq_some_iff m k v).1 hf, rfl⟩) h

end StdMap

/-! ## Rigid bodies: registration, removal, lookup -/

namespace PhysicEngine

theorem registerBodies_collisionMap (e : PhysicEngine) (body rb : Option RigidBody) :
    (e.registerBodies body rb).mCollisionObjectMap = e.mCollisionObjectMap := by
  cases body <;> cases rb <;> rfl

theorem registerBodies_raycastingMap (e : PhysicEngine) (body rb : Option RigidBody) :
    (e.registerBodies body rb).mRaycastingObjectMap = e.mRaycastingObjectMap := by
  cases body <;> cases rb <;> rfl

theorem registerBodies_world (e : PhysicEngine) (body rb : Option RigidBody) :
    (e.registerBodies body rb).mDynamicsWorld =
      e.mDynamicsWorld ++
        (body.toList.map (fun b => (⟨b, CollisionType_World,
          CollisionType_World ||| CollisionType_Actor ||| CollisionType_HeightMap⟩ : Registration)) ++
         rb.toList.map (fun r => (⟨r, CollisionType_Raycasting,
          CollisionType_Raycasting⟩ : Registration))) := by
  cases body <;> cases rb <;> simp [registerBodies, btDynamicsWorld.addRigidBody]

theorem removeRigidBody_collisionMap (e : PhysicEngine) (n : String) :
    (e.removeRigidBody n).mCollisionObjectMap = e.mCollisionObjectMap := by
  unfold removeRigidBody
  dsimp only
  split <;> split <;> rfl

theorem removeRigidBody_raycastingMap (e : PhysicEngine) (n : String) :
    (e.removeRigidBody n).mRaycastingObjectMap = e.mRaycastingObjectMap := by
  unfold removeRigidBody
  dsimp only
  split <;> split <;> rfl

theorem removeRigidBody_actorMap (e : PhysicEngine) (n : String) :
    (e.removeRigidBody n).mActorMap = e.mActorMap := by
  unfold removeRigidBody
  dsimp only
  split <;> split <;> rfl

theorem removeRigidBody_world (e : PhysicEngine) (n : String) :
    (e.removeRigidBody n).mDynamicsWorld =
      e.mDynamicsWorld.filter (fun r =>
        decide (some r.body.addr ≠ (e.mCollisionObjectMap.find n).map (fun b => b.addr)) &&
        decide (some r.body.addr ≠ (e.mRaycastingObjectMap.find n).map (fun b => b.addr))) := by
  unfold removeRigidBody
  cases h1 : e.mCollisionObjectMap.find n <;> cases h2 : e.mRaycastingObjectMap.find n <;>
    simp [h2, btDynamicsWorld.removeRigidBody, List.filter_filter, Bool.and_comm]

theorem deleteRigidBody_collisionMap (e : PhysicEngine) (n : String) :
    (e.deleteRigidBody n).mCollisionObjectMap = e.mCollisionObjectMap.erase n := by
  unfold deleteRigidBody
  cases h1 : e.mCollisionObjectMap.find n <;> cases h2 : e.mRaycastingObjectMap.find n <;>
    simp [h1, h2, StdMap.erase_of_find_none]

theorem deleteRigidBody_raycastingMap (e : PhysicEngine) (n : String) :
    (e.deleteRigidBody n).mRaycastingObjectMap = e.mRaycastingObjectMap.erase n := by
  unfold deleteRigidBody
  cases h1 : e.mCollisionObjectMap.find n <;> cases h2 : e.mRaycastingObjectMap.find n <;>
    simp [h1, h2, StdMap.erase_of_find_none]

theorem deleteRigidBody_world (e : PhysicEngine) (n : String) :
    (e.deleteRigidBody n).mDynamicsWorld = e.mDynamicsWorld := by
  unfold deleteRigidBody
  dsimp only
  split <;> split <;> rfl

theorem deleteRigidBody_actorMap (e : PhysicEngine) (n : String) :
    (e.deleteRigidBody n).mActorMap = e.mActorMap := by
  unfold deleteRigidBody
  dsimp only
  split <;> split <;> rfl

theorem getRigidBody_eq_find (e : PhysicEngine) (n : String) (raycasting : Bool) :
    e.getRigidBody n raycasting =
      (if raycasting then e.mRaycastingObjectMap else e.mCollisionObjectMap).find n := by
  unfold getRigidBody
  cases raycasting <;> simp only [Bool.false_eq_true, if_false, if_true] <;>
    split <;> simp_all

theorem addRigidBody_of_not_held (e : PhysicEngine) (b : RigidBody) (rb : Option RigidBody)
    (addToMap : Bool) (hb : b.addr ∉ e.addrsUnder b.mName) :
    e.addRigidBody (some b) addToMap rb =
      some (e.addRigidBodySteps b.mName (some b) addToMap rb) := by
  unfold addRigidBody
  dsimp only
  rw [if_neg (fun h => hb h.2)]

theorem addRigidBody_raycast_of_not_held (e : PhysicEngine) (r : RigidBody) (addToMap : Bool)
    (hr : r.addr ∉ e.addrsUnder r.mName) :
    e.addRigidBody none addToMap (some r) =
      some (e.addRigidBodySteps r.mName none addToMap (some r)) := by
  unfold addRigidBody
  dsimp only
  rw [if_neg (fun h => hr h.2)]

theorem addRigidBody_eq_some_iff (e e' : PhysicEngine) (body rb : Option RigidBody)
    (addToMap : Bool) (h : e.addRigidBody body addToMap rb = some e') :
    (body = none ∧ rb = none ∧ e' = e) ∨
    ∃ name, e' = e.addRigidBodySteps name body addToMap rb := by
  unfold addRigidBody at h
  cases body with
  | none =>
    cases rb with
    | none =>
      simp only [Option.some.injEq] at h
      exact Or.inl ⟨rfl, rfl, h.symm⟩
    | some r =>
      dsimp only at h
      split at h
      · cases h
      · simp only [Option.some.injEq] at h
        exact Or.inr ⟨_, h.symm⟩
  | some b =>
    dsimp only at h
    split at h
    · cases h
    · simp only [Option.some.injEq] at h
      exact Or.inr ⟨_, h.symm⟩

end PhysicEngine

/-- C2: for every engine state and name `n`, after `removeRigidBody(n)` followed by
`deleteRigidBody(n)` both lookups of `n` are absent, no body that was held under `n` is still
registered in the dynamics world, and the lookups of every other name give what they gave
before. -/
theorem getRigidBody_after_remove_delete (e : PhysicEngine) (n : String) :
    ((e.removeRigidBody n).deleteRigidBody n).getRigidBody n false = none ∧
    ((e.removeRigidBody n).deleteRigidBody n).getRigidBody n true = none ∧
    (∀ b : RigidBody, e.getRigidBody n false = some b ∨ e.getRigidBody n true = some b →
      ¬ ((e.removeRigidBody n).deleteRigidBody n).mDynamicsWorld.registered b) ∧
    (∀ m : String, m ≠ n →
      ((e.removeRigidBody n).deleteRigidBody n).getRigidBody m false = e.getRigidBody m false ∧
      ((e.removeRigidBody n).deleteRigidBody n).getRigidBody m true = e.getRigidBody m true) := by
  simp only [PhysicEngine.getRigidBody_eq_find, Bool.false_eq_true, if_false, if_true,
    PhysicEngine.deleteRigidBody_collisionMap, PhysicEngine.deleteRigidBody_raycastingMap,
    PhysicEngine.removeRigidBody_collisionMap, PhysicEngine.removeRigidBody_raycastingMap,
    PhysicEngine.deleteRigidBody_world, PhysicEngine.removeRigidBody_world]
  refine ⟨StdMap.find_erase_self _ _, StdMap.find_erase_self _ _, ?_, ?_⟩
  · intro b hb hreg
    unfold btDynamicsWorld.registered at hreg
    rcases List.mem_map.1 hreg with ⟨r, hr, hrb⟩
    have hf := (List.mem_filter.1 hr).2
    simp only [Bool.and_eq_true, decide_eq_true_eq] at hf
    rcases hb with hb | hb
    · exact hf.1 (by rw [hb, hrb]; rfl)
    · exact hf.2 (by rw [hb, hrb]; rfl)
  · intro m hm
    exact ⟨StdMap.find_erase_ne _ hm, StdMap.find_erase_ne _ hm⟩

/-- C7: for every engine state and every name `n` that is a key of none of the solid map, the
raycast map and the actor map, the three lookups of `n` are absent and the three removals of `n`
return the engine unchanged (maps, actors, dynamics world and heap alike). -/
theorem unregistered_name_is_noop (e : PhysicEngine) (n : String)
    (hc : e.mCollisionObjectMap.find n = none) (hr : e.mRaycastingObjectMap.find n = none)
    (ha : e.mActorMap.find n = none) :
    e.getRigidBody n false = none ∧ e.getRigidBody n true = none ∧ e.getCharacter n = none ∧
    e.removeRigidBody n = e ∧ e.deleteRigidBody n = e ∧ e.removeCharacter n = e := by
  refine ⟨?_, ?_, ?_, ?_, ?_, ?_⟩
  · rw [PhysicEngine.getRigidBody_eq_find]; simpa using hc
  · rw [PhysicEngine.getRigidBody_eq_find]; simpa using hr
  · simp [PhysicEngine.getCharacter, ha]
  · simp [PhysicEngine.removeRigidBody, hc, hr]
  · simp [PhysicEngine.deleteRigidBody, hc, hr]
  · simp [PhysicEngine.removeCharacter, ha]

theorem unregistered_name_is_noop_witness :
    (crateWorld.mCollisionObjectMap.find "door" = none ∧
      crateWorld.mRaycastingObjectMap.find "door" = none ∧
      crateWorld.mActorMap.find "door" = none) ∧
    (crateWorld.getRigidBody "door" false = none ∧ crateWorld.getRigidBody "door" true = none ∧
      crateWorld.getCharacter "door" = none ∧
      crateWorld.removeRigidBody "door" = crateWorld ∧
      crateWorld.deleteRigidBody "door" = crateWorld ∧
      crateWorld.removeCharacter "door" = crateWorld) :=
  ⟨⟨by decide, by decide, by decide⟩,
    unregistered_name_is_noop crateWorld "door" (by decide) (by decide) (by decide)⟩

/-! ## Body creation -/

/-- C8: for every shape resource and every choice of the two flags, `createAndAdjustRigidBody`
returns no body exactly when the requested variant has no shape (raycasting without a raycast
shape, or non-raycasting without a collision shape) or the request is placeable, non-raycasting
and the mesh has no collision node; every body it does return carries the given name and the
given placeable flag. -/
theorem createAndAdjustRigidBody_absent_iff (e : PhysicEngine) (shape : BulletShape)
    (name : String) (scale : ℚ) (position : Vector3) (rotation : Quaternion)
    (scaledBoxTranslation : Option Vector3) (boxRotation : Option Quaternion)
    (raycasting placeable : Bool) :
    ((e.createAndAdjustRigidBody shape name scale position rotation scaledBoxTranslation
        boxRotation raycasting placeable).body = none ↔
      ((raycasting = true ∧ shape.mRaycastingShape = none) ∨
       (raycasting = false ∧ shape.mCollisionShape = none) ∨
       (placeable = true ∧ raycasting = false ∧ shape.mHasCollisionNode = false))) ∧
    (∀ body : RigidBody,
      (e.createAndAdjustRigidBody shape name scale position rotation scaledBoxTranslation
        boxRotation raycasting placeable).body = some body →
      body.mName = name ∧ body.mPlaceable = placeable) := by
  obtain ⟨cs, rs, hn, bt, br⟩ := shape
  cases raycasting <;> cases placeable <;> cases hn <;> cases cs <;> cases rs <;>
    simp [PhysicEngine.createAndAdjustRigidBody, PhysicEngine.adjustRigidBody,
      RigidBody.setWorldTransform, RigidBody.create]

/-! ## The actor -/

theorem construct_shape_geometry (bounds : Option BoundingBox) (addr : Nat) (name mesh : String)
    (position : Vector3) (rotation : Quaternion) (scale : ℚ) :
    (PhysicActor.construct bounds addr name mesh position rotation scale).mShape.geometry =
      PhysicActor.selectShape (PhysicActor.boundsOrDefault bounds).halfExtents := rfl

/-- C9: for every half-extent triple the mesh provides, the constructor of `PhysicActor` gives
the actor a capsule along Z (radius `hx`, height `2 hz - 2 hx`) exactly when
`|hx - hy| < 0.05 * hx` and `hz >= hx`, and a box with the same half-extents otherwise; the
triple (1, 1, 3) gives a capsule, (1, 2, 1) gives a box, and a mesh without bounding data gives
the box with zero half-extents. -/
theorem actor_shape_selection (addr : Nat) (name mesh : String) (position : Vector3)
    (rotation : Quaternion) (scale : ℚ) :
    (∀ (he tr : Vector3) (ori : Quaternion),
      ((∃ r h, (PhysicActor.construct (some ⟨he, tr, ori⟩) addr name mesh position rotation
            scale).mShape.geometry = ShapeGeometry.capsuleZ r h) ↔
        (|he.x - he.y| < 0.05 * he.x ∧ he.z ≥ he.x)) ∧
      ((|he.x - he.y| < 0.05 * he.x ∧ he.z ≥ he.x) →
        (PhysicActor.construct (some ⟨he, tr, ori⟩) addr name mesh position rotation
            scale).mShape.geometry = ShapeGeometry.capsuleZ he.x (he.z * 2 - he.x * 2)) ∧
      (¬ (|he.x - he.y| < 0.05 * he.x ∧ he.z ≥ he.x) →
        (PhysicActor.construct (some ⟨he, tr, ori⟩) addr name mesh position rotation
            scale).mShape.geometry = ShapeGeometry.box he)) ∧
    (∀ (tr : Vector3) (ori : Quaternion),
      (PhysicActor.construct (some ⟨⟨1, 1, 3⟩, tr, ori⟩) addr name mesh position rotation
          scale).mShape.geometry = ShapeGeometry.capsuleZ 1 4) ∧
    (∀ (tr : Vector3) (ori : Quaternion),
      (PhysicActor.construct (some ⟨⟨1, 2, 1⟩, tr, ori⟩) addr name mesh position rotation
          scale).mShape.geometry = ShapeGeometry.box ⟨1, 2, 1⟩) ∧
    (PhysicActor.construct none addr name mesh position rotation scale).mShape.geometry =
      ShapeGeometry.box ⟨0, 0, 0⟩ := by
  refine ⟨?_, ?_, ?_, ?_⟩
  · intro he tr ori
    rw [construct_shape_geometry]
    simp only [PhysicActor.boundsOrDefault, PhysicActor.selectShape]
    by_cases hc : |he.x - he.y| < he.x * 0.05 ∧ he.z ≥ he.x
    · have hc' : |he.x - he.y| < 0.05 * he.x ∧ he.z ≥ he.x := by rwa [mul_comm]
      rw [if_pos hc]
      exact ⟨⟨fun _ => hc', fun _ => ⟨_, _, rfl⟩⟩, fun _ => rfl, fun h => absurd hc' h⟩
    · have hc' : ¬ (|he.x - he.y| < 0.05 * he.x ∧ he.z ≥ he.x) := by rwa [mul_comm]
      rw [if_neg hc]
      refine ⟨⟨fun h => ?_, fun h => absurd h hc'⟩, fun h => absurd h hc', fun _ => rfl⟩
      obtain ⟨r, h, hrh⟩ := h
      cases hrh
  · intro tr ori
    rw [construct_shape_geometry]
    simp only [PhysicActor.boundsOrDefault, PhysicActor.selectShape]
    norm_num
  · intro tr ori
    rw [construct_shape_geometry]
    simp only [PhysicActor.boundsOrDefault, PhysicActor.selectShape]
    norm_num
  · rw [construct_shape_geometry]
    simp only [PhysicActor.boundsOrDefault, PhysicActor.selectShape, Vector3.splat]
    norm_num

/-! ## Standing on an object -/

theorem rayTest_name (query : RayQuery) (from_ to_ : Vector3)
    (raycastingObjectOnly ignoreHeightMap : Bool) (normal : Option Vector3) :
    (PhysicEngine.rayTest query from_ to_ raycastingObjectOnly ignoreHeightMap normal).1.1 =
      match (query from_ to_ 0xff
          (PhysicEngine.rayTestMask raycastingObjectOnly ignoreHeightMap)).m_collisionObject with
      | some obj => obj.mName
      | none => "" := by
  unfold PhysicEngine.rayTest
  dsimp only
  split <;> simp_all

theorem isAnyActorStandingOnLoop_iff (query : RayQuery) (d1 d2 : Bool) (n : String)
    (l : List (String × PhysicActor)) :
    PhysicEngine.isAnyActorStandingOnLoop query d1 d2 n l = true ↔
      ∃ a ∈ l.map Prod.snd, a.mOnGround = true ∧
        (PhysicEngine.rayTest query a.mPosition (a.mPosition.sub ⟨0, 0, 5⟩) d1 d2 none).1.1 = n := by
  induction l with
  | nil => simp [PhysicEngine.isAnyActorStandingOnLoop]
  | cons p rest ih =>
    obtain ⟨k, a⟩ := p
    unfold PhysicEngine.isAnyActorStandingOnLoop
    cases hg : a.mOnGround
    · simp [PhysicActor.getOnGround, hg, ih]
    · by_cases hr :
        (PhysicEngine.rayTest query a.mPosition (a.mPosition.sub ⟨0, 0, 5⟩) d1 d2 none).1.1 = n
      · simp [PhysicActor.getOnGround, PhysicActor.getPosition, hg, hr]
      · simp [PhysicActor.getOnGround, PhysicActor.getPosition, hg, hr, ih]

/-- C10 (as amended): for every engine state, ray query and non-empty object name `n`,
`isAnyActorStandingOn(n)` is true exactly when some actor flagged on-ground has a body named `n`
as the nearest hit of the ray from its position to 5 units below it; it is false when no actor is
on-ground and when the downward ray of every on-ground actor hits nothing. -/
theorem isAnyActorStandingOn_iff (e : PhysicEngine) (query : RayQuery) (d1 d2 : Bool)
    (n : String) (hn : n ≠ "") :
    (e.isAnyActorStandingOn query d1 d2 n = true ↔
      ∃ a ∈ e.mActorMap.values, a.mOnGround = true ∧
        ∃ b : RigidBody,
          (query a.mPosition (a.mPosition.sub ⟨0, 0, 5⟩) 0xff
            (PhysicEngine.rayTestMask d1 d2)).m_collisionObject = some b ∧ b.mName = n) ∧
    ((∀ a ∈ e.mActorMap.values, a.mOnGround = false) →
      e.isAnyActorStandingOn query d1 d2 n = false) ∧
    ((∀ a ∈ e.mActorMap.values, a.mOnGround = true →
        (query a.mPosition (a.mPosition.sub ⟨0, 0, 5⟩) 0xff
          (PhysicEngine.rayTestMask d1 d2)).m_collisionObject = none) →
      e.isAnyActorStandingOn query d1 d2 n = false) := by
  have key : e.isAnyActorStandingOn query d1 d2 n = true ↔
      ∃ a ∈ e.mActorMap.values, a.mOnGround = true ∧
        ∃ b : RigidBody,
          (query a.mPosition (a.mPosition.sub ⟨0, 0, 5⟩) 0xff
            (PhysicEngine.rayTestMask d1 d2)).m_collisionObject = some b ∧ b.mName = n := by
    unfold PhysicEngine.isAnyActorStandingOn StdMap.values
    rw [isAnyActorStandingOnLoop_iff]
    constructor
    · rintro ⟨a, ha, hg, hr⟩
      refine ⟨a, ha, hg, ?_⟩
      rw [rayTest_name] at hr
      cases hq : (query a.mPosition (a.mPosition.sub ⟨0, 0, 5⟩) 0xff
          (PhysicEngine.rayTestMask d1 d2)).m_collisionObject with
      | none => rw [hq] at hr; exact absurd hr.symm hn
      | some b => rw [hq] at hr; exact ⟨b, rfl, hr⟩
    · rintro ⟨a, ha, hg, b, hb, hbn⟩
      refine ⟨a, ha, hg, ?_⟩
      rw [rayTest_name, hb]
      exact hbn
  refine ⟨key, ?_, ?_⟩
  · intro h
    rw [← Bool.not_eq_true, key]
    rintro ⟨a, ha, hg, -⟩
    rw [h a ha] at hg
    cases hg
  · intro h
    rw [← Bool.not_eq_true, key]
    rintro ⟨a, ha, hg, b, hb, -⟩
    rw [h a ha hg] at hb
    cases hb

theorem isAnyActorStandingOn_iff_witness :
    "floor" ≠ "" ∧
    ((groundedWorld.isAnyActorStandingOn floorHit true false "floor" = true ↔
      ∃ a ∈ groundedWorld.mActorMap.values, a.mOnGround = true ∧
        ∃ b : RigidBody,
          (floorHit a.mPosition (a.mPosition.sub ⟨0, 0, 5⟩) 0xff
            (PhysicEngine.rayTestMask true false)).m_collisionObject = some b ∧
          b.mName = "floor") ∧
    ((∀ a ∈ groundedWorld.mActorMap.values, a.mOnGround = false) →
      groundedWorld.isAnyActorStandingOn floorHit true false "floor" = false) ∧
    ((∀ a ∈ groundedWorld.mActorMap.values, a.mOnGround = true →
        (floorHit a.mPosition (a.mPosition.sub ⟨0, 0, 5⟩) 0xff
          (PhysicEngine.rayTestMask true false)).m_collisionObject = none) →
      groundedWorld.isAnyActorStandingOn floorHit true false "floor" = false)) :=
  ⟨by decide, isAnyActorStandingOn_iff groundedWorld floorHit true false "floor" (by decide)⟩

/-- C10 (as stated) fails for the empty name: with one on-ground actor whose downward ray hits
nothing, `isAnyActorStandingOn("")` is true although no ray hit any body. -/
theorem isAnyActorStandingOn_empty_name_counterexample :
    groundedWorld.isAnyActorStandingOn nothingHit true false "" = true ∧
    (∃ a ∈ groundedWorld.mActorMap.values, a.mOnGround = true) ∧
    (∀ a ∈ groundedWorld.mActorMap.values,
      (nothingHit a.mPosition (a.mPosition.sub ⟨0, 0, 5⟩) 0xff
        (PhysicEngine.rayTestMask true false)).m_collisionObject = none) ∧
    ¬ (groundedWorld.isAnyActorStandingOn nothingHit true false "" = true ↔
      ∃ a ∈ groundedWorld.mActorMap.values, a.mOnGround = true ∧
        ∃ b : RigidBody,
          (nothingHit a.mPosition (a.mPosition.sub ⟨0, 0, 5⟩) 0xff
            (PhysicEngine.rayTestMask true false)).m_collisionObject = some b ∧
          b.mName = "") := by
  have h1 : groundedWorld.isAnyActorStandingOn nothingHit true false "" = true := by
    rw [PhysicEngine.isAnyActorStandingOn, isAnyActorStandingOnLoop_iff]
    refine ⟨(groundedWorld.mActorMap.entries.map Prod.snd).head (by decide),
      List.head_mem _, rfl, ?_⟩
    rw [rayTest_name]
    rfl
  refine ⟨h1, ?_, ?_, ?_⟩
  · exact ⟨(groundedWorld.mActorMap.entries.map Prod.snd).head (by decide),
      List.head_mem _, rfl⟩
  · intro a _
    rfl
  · rw [h1]
    simp [nothingHit]

/-! ## Height-fields -/

theorem removeHeightField_unregistered (e : PhysicEngine) (x y : Int)
    (h : e.mHeightFieldMap.find (heightFieldName x y) = none) :
    e.removeHeightField x y = none := by
  simp [PhysicEngine.removeHeightField, h, btDynamicsWorld.removeRigidBodyPtr]

theorem removeHeightField_registered (e : PhysicEngine) (heights : List ℚ) (x y : Int)
    (yoffset triSize : ℚ) (sqrtVerts : Nat) :
    ((e.addHeightField heights x y yoffset triSize sqrtVerts).removeHeightField x y).isSome =
      true := by
  simp [PhysicEngine.removeHeightField, PhysicEngine.addHeightField, StdMap.find_assign_self,
    btDynamicsWorld.removeRigidBodyPtr]

/-- C6: on an engine with no height-field at grid cell (0, 0), `removeHeightField(0, 0)` hands
the null body pointer of a value-initialised `HeightField` to the dynamics world, a call that has
no resulting state; the removal does not complete as a no-op. -/
theorem removeHeightField_absent_tile :
    PhysicEngine.create.mHeightFieldMap.find (heightFieldName 0 0) = none ∧
    PhysicEngine.create.removeHeightField 0 0 = none :=
  ⟨rfl, removeHeightField_unregistered PhysicEngine.create 0 0 rfl⟩

/-! ## One name, two maps -/

namespace PhysicEngine

theorem addRigidBodySteps_collisionMap (e : PhysicEngine) (name : String)
    (body rb : Option RigidBody) :
    (e.addRigidBodySteps name body true rb).mCollisionObjectMap =
      match body with
      | some b => e.mCollisionObjectMap.assign name b
      | none => e.mCollisionObjectMap.erase name := by
  cases body <;> cases rb <;>
    simp only [addRigidBodySteps, if_true, deleteRigidBody_collisionMap,
      removeRigidBody_collisionMap, registerBodies_collisionMap] <;>
    first
      | rfl
      | exact StdMap.ext_entries (by simp [StdMap.assign, StdMap.erase, StdMap.without])

theorem addRigidBodySteps_raycastingMap (e : PhysicEngine) (name : String)
    (body rb : Option RigidBody) :
    (e.addRigidBodySteps name body true rb).mRaycastingObjectMap =
      match rb with
      | some r => e.mRaycastingObjectMap.assign name r
      | none => e.mRaycastingObjectMap.erase name := by
  cases body <;> cases rb <;>
    simp only [addRigidBodySteps, if_true, deleteRigidBody_raycastingMap,
      removeRigidBody_raycastingMap, registerBodies_raycastingMap] <;>
    first
      | rfl
      | exact StdMap.ext_entries (by simp [StdMap.assign, StdMap.erase, StdMap.without])

end PhysicEngine

theorem StdMap.mem_values_iff {V : Type} (m : StdMap V) (n : String) (v : V) :
    v ∈ m.values ↔ m.find n = some v ∨ v ∈ (StdMap.without n m.entries).map Prod.snd := by
  constructor
  · intro h
    rcases List.mem_map.1 h with ⟨⟨k, v'⟩, hmem, hv⟩
    simp only at hv
    subst hv
    by_cases hk : k = n
    · subst hk
      exact Or.inl ((m.find_eq_some_iff k v').2 hmem)
    · refine Or.inr (List.mem_map.2 ⟨(k, v'), ?_, rfl⟩)
      exact List.mem_filter.2 ⟨hmem, by simpa using hk⟩
  · rintro (h | h)
    · exact List.mem_map.2 ⟨(n, v), (m.find_eq_some_iff n v).1 h, rfl⟩
    · rcases List.mem_map.1 h with ⟨p, hp, hv⟩
      exact List.mem_map.2 ⟨p, (List.mem_filter.1 hp).1, hv⟩

namespace PhysicEngine

theorem mem_addrsUnder (e : PhysicEngine) (n : String) (a : Nat) :
    a ∈ e.addrsUnder n ↔
      (∃ b, e.mCollisionObjectMap.find n = some b ∧ b.addr = a) ∨
      (∃ b, e.mRaycastingObjectMap.find n = some b ∧ b.addr = a) := by
  unfold addrsUnder
  simp only [List.mem_map, List.mem_append, Option.mem_toList, Option.mem_def]
  constructor
  · rintro ⟨b, hb | hb, hba⟩
    · exact Or.inl ⟨b, hb, hba⟩
    · exact Or.inr ⟨b, hb, hba⟩
  · rintro (⟨b, hb, hba⟩ | ⟨b, hb, hba⟩)
    · exact ⟨b, Or.inl hb, hba⟩
    · exact ⟨b, Or.inr hb, hba⟩

theorem mem_heldAddrs_iff (e : PhysicEngine) (a : Nat) :
    a ∈ e.heldAddrs ↔
      ∃ b : RigidBody, (b ∈ e.mCollisionObjectMap.values ∨ b ∈ e.mRaycastingObjectMap.values) ∧
        b.addr = a := by
  unfold heldAddrs
  rw [List.mem_map]
  simp only [List.mem_append]

theorem mem_addrsElsewhere_iff (e : PhysicEngine) (n : String) (a : Nat) :
    a ∈ e.addrsElsewhere n ↔
      ∃ b : RigidBody,
        (b ∈ (StdMap.without n e.mCollisionObjectMap.entries).map Prod.snd ∨
         b ∈ (StdMap.without n e.mRaycastingObjectMap.entries).map Prod.snd) ∧ b.addr = a := by
  unfold addrsElsewhere
  rw [List.mem_map, List.map_append]
  simp only [List.mem_append]

theorem mem_heldAddrs (e : PhysicEngine) (n : String) (a : Nat) :
    a ∈ e.heldAddrs ↔ a ∈ e.addrsUnder n ∨ a ∈ e.addrsElsewhere n := by
  rw [mem_addrsUnder, mem_heldAddrs_iff, mem_addrsElsewhere_iff]
  constructor
  · rintro ⟨b, hb | hb, hba⟩
    · rcases (StdMap.mem_values_iff _ n b).1 hb with h | h
      · exact Or.inl (Or.inl ⟨b, h, hba⟩)
      · exact Or.inr ⟨b, Or.inl h, hba⟩
    · rcases (StdMap.mem_values_iff _ n b).1 hb with h | h
      · exact Or.inl (Or.inr ⟨b, h, hba⟩)
      · exact Or.inr ⟨b, Or.inr h, hba⟩
  · rintro ((⟨b, hb, hba⟩ | ⟨b, hb, hba⟩) | ⟨b, hb | hb, hba⟩)
    · exact ⟨b, Or.inl ((StdMap.mem_values_iff _ n b).2 (Or.inl hb)), hba⟩
    · exact ⟨b, Or.inr ((StdMap.mem_values_iff _ n b).2 (Or.inl hb)), hba⟩
    · exact ⟨b, Or.inl ((StdMap.mem_values_iff _ n b).2 (Or.inr hb)), hba⟩
    · exact ⟨b, Or.inr ((StdMap.mem_values_iff _ n b).2 (Or.inr hb)), hba⟩

theorem mem_registeredAddrs_removeRigidBody (e : PhysicEngine) (n : String) (a : Nat) :
    a ∈ (e.removeRigidBody n).registeredAddrs ↔ a ∈ e.registeredAddrs ∧ a ∉ e.addrsUnder n := by
  rw [mem_addrsUnder]
  unfold registeredAddrs
  rw [removeRigidBody_world]
  simp only [List.mem_map, List.mem_filter, Bool.and_eq_true, decide_eq_true_eq]
  constructor
  · rintro ⟨r, ⟨hr, h1, h2⟩, hra⟩
    refine ⟨⟨r, hr, hra⟩, ?_⟩
    rintro (⟨b, hb, hba⟩ | ⟨b, hb, hba⟩)
    · exact h1 (by rw [hb, hra, ← hba]; rfl)
    · exact h2 (by rw [hb, hra, ← hba]; rfl)
  · rintro ⟨⟨r, hr, hra⟩, hn⟩
    refine ⟨r, ⟨hr, ?_, ?_⟩, hra⟩
    · intro h
      cases hf : e.mCollisionObjectMap.find n with
      | none => rw [hf] at h; cases h
      | some b =>
        rw [hf] at h
        exact hn (Or.inl ⟨b, hf, by simpa [hra] using h.symm⟩)
    · intro h
      cases hf : e.mRaycastingObjectMap.find n with
      | none => rw [hf] at h; cases h
      | some b =>
        rw [hf] at h
        exact hn (Or.inr ⟨b, hf, by simpa [hra] using h.symm⟩)

theorem heldAddrs_remove_delete (e : PhysicEngine) (n : String) :
    ((e.removeRigidBody n).deleteRigidBody n).heldAddrs = e.addrsElsewhere n := by
  unfold heldAddrs addrsElsewhere
  rw [deleteRigidBody_collisionMap, deleteRigidBody_raycastingMap, removeRigidBody_collisionMap,
    removeRigidBody_raycastingMap]
  simp [StdMap.values, StdMap.erase]

theorem consistent_remove_delete (e : PhysicEngine) (n : String) (hc : e.Consistent)
    (hu : e.Unshared n) : ((e.removeRigidBody n).deleteRigidBody n).Consistent := by
  intro a
  rw [heldAddrs_remove_delete]
  have hw : ((e.removeRigidBody n).deleteRigidBody n).registeredAddrs =
      (e.removeRigidBody n).registeredAddrs := by
    unfold registeredAddrs
    rw [deleteRigidBody_world]
  rw [hw, mem_registeredAddrs_removeRigidBody, hc a, mem_heldAddrs e n]
  constructor
  · rintro ⟨h | h, hn⟩
    · exact absurd h hn
    · exact h
  · intro h
    exact ⟨Or.inr h, fun hin => hu a hin h⟩

theorem addRigidBodySteps_registeredAddrs (e : PhysicEngine) (name : String)
    (body rb : Option RigidBody) :
    (e.addRigidBodySteps name body true rb).registeredAddrs =
      ((e.registerBodies body rb).removeRigidBody name).registeredAddrs := by
  unfold registeredAddrs
  cases body <;> cases rb <;> simp only [addRigidBodySteps, if_true, deleteRigidBody_world]

theorem mem_registeredAddrs_addRigidBodySteps (e : PhysicEngine) (name : String)
    (body rb : Option RigidBody) (a : Nat) :
    a ∈ (e.addRigidBodySteps name body true rb).registeredAddrs ↔
      (a ∈ e.registeredAddrs ∨ body.map (fun b => b.addr) = some a ∨
        rb.map (fun b => b.addr) = some a) ∧ a ∉ e.addrsUnder name := by
  rw [addRigidBodySteps_registeredAddrs, mem_registeredAddrs_removeRigidBody]
  have h1 : (e.registerBodies body rb).addrsUnder name = e.addrsUnder name := by
    unfold addrsUnder
    rw [registerBodies_collisionMap, registerBodies_raycastingMap]
  have h2 : a ∈ (e.registerBodies body rb).registeredAddrs ↔
      (a ∈ e.registeredAddrs ∨ body.map (fun b => b.addr) = some a ∨
        rb.map (fun b => b.addr) = some a) := by
    unfold registeredAddrs
    rw [registerBodies_world]
    cases body <;> cases rb <;> simp [eq_comm]
  rw [h1, h2]

theorem mem_heldAddrs_addRigidBodySteps (e : PhysicEngine) (name : String)
    (body rb : Option RigidBody) (a : Nat) :
    a ∈ (e.addRigidBodySteps name body true rb).heldAddrs ↔
      (body.map (fun b => b.addr) = some a ∨ rb.map (fun b => b.addr) = some a) ∨
        a ∈ e.addrsElsewhere name := by
  rw [mem_heldAddrs_iff, mem_addrsElsewhere_iff, addRigidBodySteps_collisionMap,
    addRigidBodySteps_raycastingMap]
  cases body <;> cases rb <;>
    simp only [StdMap.values, StdMap.assign, StdMap.erase, List.map_cons, List.mem_cons,
      Option.map_none', Option.map_some', false_or, or_false, Option.some.injEq]
  all_goals
    generalize List.map Prod.snd (StdMap.without name e.mCollisionObjectMap.entries) = l1
    generalize List.map Prod.snd (StdMap.without name e.mRaycastingObjectMap.entries) = l2
    constructor
    · rintro ⟨b, h, rfl⟩
      aesop
    · intro h
      aesop

theorem consistent_addRigidBodySteps (e : PhysicEngine) (name : String)
    (body rb : Option RigidBody) (hc : e.Consistent) (hu : e.Unshared name)
    (hb : ∀ b, body = some b → b.addr ∉ e.addrsUnder name)
    (hr : ∀ r, rb = some r → r.addr ∉ e.addrsUnder name) :
    (e.addRigidBodySteps name body true rb).Consistent := by
  intro a
  rw [mem_registeredAddrs_addRigidBodySteps, mem_heldAddrs_addRigidBodySteps, hc a,
    mem_heldAddrs e name]
  constructor
  · rintro ⟨(h | h) | h | h, hn⟩
    · exact absurd h hn
    · exact Or.inr h
    · exact Or.inl (Or.inl h)
    · exact Or.inl (Or.inr h)
  · rintro ((h | h) | h)
    · refine ⟨Or.inr (Or.inl h), ?_⟩
      cases body with
      | none => cases h
      | some b =>
        simp only [Option.map_some', Option.some.injEq] at h
        exact h ▸ hb b rfl
    · refine ⟨Or.inr (Or.inr h), ?_⟩
      cases rb with
      | none => cases h
      | some r =>
        simp only [Option.map_some', Option.some.injEq] at h
        exact h ▸ hr r rfl
    · exact ⟨Or.inl (Or.inr h), fun hin => hu a hin h⟩

end PhysicEngine

/-- C4 (as amended): from a state in which the bodies registered in the dynamics world are
exactly the bodies held in the two maps, and in which no body held under `n` is also held under
another name, the state after `removeRigidBody(n)` followed by `deleteRigidBody(n)` satisfies the
same equality, and an `addRigidBody` call with map registration under `n` whose bodies are not
the ones already held under `n` completes in a state that satisfies it too. -/
theorem consistency_preserved (e : PhysicEngine) (n : String) (hc : e.Consistent)
    (hu : e.Unshared n) :
    ((e.removeRigidBody n).deleteRigidBody n).Consistent ∧
    (∀ (b : RigidBody) (rb : Option RigidBody), b.mName = n → b.addr ∉ e.addrsUnder n →
      (∀ r, rb = some r → r.addr ∉ e.addrsUnder n) →
      ∃ e' : PhysicEngine, e.addRigidBody (some b) true rb = some e' ∧ e'.Consistent) ∧
    (∀ r : RigidBody, r.mName = n → r.addr ∉ e.addrsUnder n →
      ∃ e' : PhysicEngine, e.addRigidBody none true (some r) = some e' ∧ e'.Consistent) := by
  refine ⟨PhysicEngine.consistent_remove_delete e n hc hu, ?_, ?_⟩
  · intro b rb hbn hb hr
    subst hbn
    exact ⟨_, PhysicEngine.addRigidBody_of_not_held e b rb true hb,
      PhysicEngine.consistent_addRigidBodySteps e b.mName (some b) rb hc hu
        (fun b' hb' => by cases hb'; exact hb) hr⟩
  · intro r hrn hr
    subst hrn
    exact ⟨_, PhysicEngine.addRigidBody_raycast_of_not_held e r true hr,
      PhysicEngine.consistent_addRigidBodySteps e r.mName none (some r) hc hu
        (fun b' hb' => by cases hb') (fun r' hr' => by cases hr'; exact hr)⟩

theorem consistency_preserved_witness :
    crateWorld.Consistent ∧ crateWorld.Unshared "crate" ∧
    (((crateWorld.removeRigidBody "crate").deleteRigidBody "crate").Consistent ∧
     (∀ (b : RigidBody) (rb : Option RigidBody), b.mName = "crate" →
       b.addr ∉ crateWorld.addrsUnder "crate" →
       (∀ r, rb = some r → r.addr ∉ crateWorld.addrsUnder "crate") →
       ∃ e' : PhysicEngine,
         crateWorld.addRigidBody (some b) true rb = some e' ∧ e'.Consistent) ∧
     (∀ r : RigidBody, r.mName = "crate" → r.addr ∉ crateWorld.addrsUnder "crate" →
       ∃ e' : PhysicEngine,
         crateWorld.addRigidBody none true (some r) = some e' ∧ e'.Consistent)) :=
  ⟨by decide, by decide, consistency_preserved crateWorld "crate" (by decide) (by decide)⟩

/-- C4 (as stated) fails for each of the two single steps: in a world whose only body is the
solid body of "crate", registration and bookkeeping agree; after `removeRigidBody("crate")` the
map still holds the body that is no longer registered, and after `deleteRigidBody("crate")` the
body is still registered but no map holds it. -/
theorem single_step_inconsistent_counterexample :
    solidCrateWorld.Consistent ∧
    ¬ (solidCrateWorld.removeRigidBody "crate").Consistent ∧
    ¬ (solidCrateWorld.deleteRigidBody "crate").Consistent := by
  decide

/-! ## Characters -/

namespace PhysicEngine

theorem construct_body (bounds : Option BoundingBox) (addr : Nat) (name mesh : String)
    (position : Vector3) (rotation : Quaternion) (scale : ℚ) :
    (PhysicActor.construct bounds addr name mesh position rotation scale).mBody.addr = addr ∧
    (PhysicActor.construct bounds addr name mesh position rotation scale).mBody.mName = name :=
  ⟨rfl, rfl⟩

theorem addCharacter_nextAddr (e : PhysicEngine) (g : String → Option BoundingBox)
    (n mesh : String) (pos : Vector3) (sc : ℚ) (rot : Quaternion) :
    (e.addCharacter g n mesh pos sc rot).nextAddr = e.nextAddr + 1 := by
  unfold addCharacter removeCharacter
  cases e.mActorMap.find n <;> rfl

theorem addCharacter_actorMap (e : PhysicEngine) (g : String → Option BoundingBox)
    (n mesh : String) (pos : Vector3) (sc : ℚ) (rot : Quaternion) :
    (e.addCharacter g n mesh pos sc rot).mActorMap =
      e.mActorMap.assign n (PhysicActor.construct (g mesh) e.nextAddr n mesh pos rot sc) := by
  unfold addCharacter removeCharacter
  cases h : e.mActorMap.find n
  · rfl
  · exact StdMap.ext_entries
      (by simp [newPhysicActor, deletePhysicActor, StdMap.assign, StdMap.erase, StdMap.without])

theorem addCharacter_world (e : PhysicEngine) (g : String → Option BoundingBox)
    (n mesh : String) (pos : Vector3) (sc : ℚ) (rot : Quaternion) :
    (e.addCharacter g n mesh pos sc rot).mDynamicsWorld =
      (match e.mActorMap.find n with
        | some old => e.mDynamicsWorld.removeRigidBody old.mBody
        | none => e.mDynamicsWorld) ++
      [⟨(PhysicActor.construct (g mesh) e.nextAddr n mesh pos rot sc).mBody, CollisionType_Actor,
        CollisionType_Actor ||| CollisionType_World ||| CollisionType_HeightMap⟩] := by
  unfold addCharacter removeCharacter
  cases h : e.mActorMap.find n <;> rfl

theorem afterCharacters_snoc (e : PhysicEngine) (g : String → Option BoundingBox)
    (calls : List CharacterCall) (c : CharacterCall) :
    e.afterCharacters g (calls ++ [c]) =
      (e.afterCharacters g calls).addCharacter g c.name c.mesh c.position c.scale c.rotation := by
  simp [afterCharacters, List.foldl_append]

theorem afterCharacters_cons (e : PhysicEngine) (g : String → Option BoundingBox)
    (calls : List CharacterCall) (c : CharacterCall) :
    e.afterCharacters g (c :: calls) =
      (e.addCharacter g c.name c.mesh c.position c.scale c.rotation).afterCharacters g calls :=
  rfl

theorem afterCharacters_nextAddr (g : String → Option BoundingBox) (calls : List CharacterCall) :
    ∀ e : PhysicEngine, (e.afterCharacters g calls).nextAddr = e.nextAddr + calls.length := by
  induction calls with
  | nil => intro e; rfl
  | cons c rest ih =>
    intro e
    rw [afterCharacters_cons, ih, addCharacter_nextAddr, List.length_cons]
    omega

theorem afterCharacters_find_of_not_mem (g : String → Option BoundingBox) (n : String)
    (calls : List CharacterCall) :
    ∀ e : PhysicEngine, n ∉ calls.map (fun c => c.name) →
      (e.afterCharacters g calls).mActorMap.find n = e.mActorMap.find n := by
  induction calls with
  | nil => intro e _; rfl
  | cons c rest ih =>
    intro e hn
    simp only [List.map_cons, List.mem_cons, not_or] at hn
    rw [afterCharacters_cons, ih _ hn.2, addCharacter_actorMap, StdMap.find_assign_ne _ _ hn.1]

theorem afterCharacters_append (e : PhysicEngine) (g : String → Option BoundingBox)
    (pre post : List CharacterCall) :
    e.afterCharacters g (pre ++ post) = (e.afterCharacters g pre).afterCharacters g post := by
  simp [afterCharacters, List.foldl_append]

theorem getCharacter_eq_find (e : PhysicEngine) (n : String) :
    e.getCharacter n = e.mActorMap.find n := by
  unfold getCharacter
  split <;> simp_all

theorem getCharacter_afterCharacters (e : PhysicEngine) (g : String → Option BoundingBox)
    (pre post : List CharacterCall) (c : CharacterCall)
    (hn : c.name ∉ post.map (fun c => c.name)) :
    (e.afterCharacters g (pre ++ c :: post)).getCharacter c.name =
      some (PhysicActor.construct (g c.mesh) (e.nextAddr + pre.length) c.name c.mesh c.position
        c.rotation c.scale) := by
  rw [getCharacter_eq_find, afterCharacters_append, afterCharacters_cons,
    afterCharacters_find_of_not_mem g c.name post _ hn, addCharacter_actorMap,
    StdMap.find_assign_self, afterCharacters_nextAddr]

end PhysicEngine

namespace PhysicEngine

theorem actorsTracked_init (e : PhysicEngine) (h : e.HeapOk) :
    e.ActorsTracked e.nextAddr [] where
  heap := h
  base_le := le_refl _
  owner := fun r hr hb => absurd (h.1 r hr) (not_lt.2 hb)
  distinct := fun m m' a a' hm _ hb _ =>
    absurd (h.2 (m, a) ((e.mActorMap.find_eq_some_iff m a).1 hm)) (not_lt.2 hb)
  count := by
    intro m
    unfold registeredSince
    rw [List.filter_eq_nil_iff.2]
    · simp
    · intro r hr
      have := h.1 r hr
      simp only [Bool.and_eq_true, decide_eq_true_eq, not_and]
      intro hb
      omega

/-- The registrations that survive the removal of the previous actor of the name. -/
theorem mem_world_after_removal (e : PhysicEngine) (n : String) (r : Registration)
    (hr : r ∈ (match e.mActorMap.find n with
        | some old => e.mDynamicsWorld.removeRigidBody old.mBody
        | none => e.mDynamicsWorld)) :
    r ∈ e.mDynamicsWorld ∧
      ∀ old, e.mActorMap.find n = some old → r.body.addr ≠ old.mBody.addr := by
  cases h : e.mActorMap.find n with
  | none =>
    rw [h] at hr
    exact ⟨hr, fun old ho => by cases ho⟩
  | some old =>
    rw [h] at hr
    have := List.mem_filter.1 hr
    refine ⟨this.1, fun old' ho => ?_⟩
    cases ho
    simpa using this.2

theorem actorsTracked_addCharacter (base : Nat) (added : List String) (e : PhysicEngine)
    (h : e.ActorsTracked base added) (g : String → Option BoundingBox)
    (n mesh : String) (pos : Vector3) (sc : ℚ) (rot : Quaternion) :
    (e.addCharacter g n mesh pos sc rot).ActorsTracked base (n :: added) := by
  have hfind : ∀ m a, e.mActorMap.find m = some a → a.mBody.addr < e.nextAddr :=
    fun m a hm => h.heap.2 (m, a) ((e.mActorMap.find_eq_some_iff m a).1 hm)
  -- a tracked registration that survives the removal is not named `n`
  have hsurv : ∀ r ∈ (match e.mActorMap.find n with
        | some old => e.mDynamicsWorld.removeRigidBody old.mBody
        | none => e.mDynamicsWorld), base ≤ r.body.addr → r.body.mName ≠ n := by
    intro r hr hb hname
    obtain ⟨hrw, hne⟩ := mem_world_after_removal e n r hr
    obtain ⟨a, ha, haddr⟩ := h.owner r hrw hb
    rw [hname] at ha
    exact hne a ha haddr.symm
  constructor
  · constructor
    · intro r hr
      rw [addCharacter_world] at hr
      rw [addCharacter_nextAddr]
      rcases List.mem_append.1 hr with hr | hr
      · exact Nat.lt_succ_of_lt (h.heap.1 r (mem_world_after_removal e n r hr).1)
      · rw [List.mem_singleton.1 hr]
        exact Nat.lt_succ_self _
    · intro p hp
      rw [addCharacter_actorMap] at hp
      rw [addCharacter_nextAddr]
      rcases List.mem_cons.1 hp with hp | hp
      · rw [hp]
        exact Nat.lt_succ_self _
      · exact Nat.lt_succ_of_lt (h.heap.2 p (List.mem_filter.1 hp).1)
  · rw [addCharacter_nextAddr]
    exact Nat.le_succ_of_le h.base_le
  · intro r hr hb
    rw [addCharacter_world] at hr
    rw [addCharacter_actorMap]
    rcases List.mem_append.1 hr with hr | hr
    · have hname := hsurv r hr hb
      rw [StdMap.find_assign_ne _ _ hname]
      exact h.owner r (mem_world_after_removal e n r hr).1 hb
    · rw [List.mem_singleton.1 hr]
      exact ⟨_, StdMap.find_assign_self _ _ _, rfl⟩
  · intro m m' a a' hm hm' hb haddr
    rw [addCharacter_actorMap] at hm hm'
    by_cases h1 : m = n
    · by_cases h2 : m' = n
      · rw [h1, h2]
      · rw [StdMap.find_assign_ne _ _ h2] at hm'
        rw [h1, StdMap.find_assign_self] at hm
        cases hm
        have := hfind m' a' hm'
        rw [← haddr] at this
        exact absurd this (lt_irrefl _)
    · rw [StdMap.find_assign_ne _ _ h1] at hm
      by_cases h2 : m' = n
      · rw [h2, StdMap.find_assign_self] at hm'
        cases hm'
        have := hfind m a hm
        rw [haddr] at this
        exact absurd this (lt_irrefl _)
      · rw [StdMap.find_assign_ne _ _ h2] at hm'
        exact h.distinct m m' a a' hm hm' hb haddr
  · intro m
    unfold registeredSince
    rw [addCharacter_world, List.filter_append, List.length_append]
    by_cases hmn : m = n
    · subst hmn
      rw [List.filter_eq_nil_iff.2]
      · simp [construct_body, h.base_le]
      · intro r hr
        simp only [Bool.and_eq_true, decide_eq_true_eq, not_and]
        exact fun hb => hsurv r hr hb
    · have hnm : n ≠ m := fun hh => hmn hh.symm
      have hlast : List.filter
          (fun r : Registration => decide (base ≤ r.body.addr) && decide (r.body.mName = m))
          [⟨(PhysicActor.construct (g mesh) e.nextAddr n mesh pos rot sc).mBody,
            CollisionType_Actor,
            CollisionType_Actor ||| CollisionType_World ||| CollisionType_HeightMap⟩] = [] := by
        rw [List.filter_eq_nil_iff]
        intro r hr
        rw [List.mem_singleton.1 hr]
        simp [construct_body, hnm]
      have hkeep : List.filter
          (fun r : Registration => decide (base ≤ r.body.addr) && decide (r.body.mName = m))
          (match e.mActorMap.find n with
            | some old => e.mDynamicsWorld.removeRigidBody old.mBody
            | none => e.mDynamicsWorld) =
          List.filter
            (fun r : Registration => decide (base ≤ r.body.addr) && decide (r.body.mName = m))
            e.mDynamicsWorld := by
        cases ho : e.mActorMap.find n with
        | none => rfl
        | some old =>
          simp only [btDynamicsWorld.removeRigidBody, List.filter_filter]
          apply List.filter_congr
          intro r hr
          by_cases hP : base ≤ r.body.addr ∧ r.body.mName = m
          · obtain ⟨a, ha, haddr⟩ := h.owner r hr hP.1
            rw [hP.2] at ha
            have hne : r.body.addr ≠ old.mBody.addr := by
              intro heq
              exact hmn (h.distinct m n a old ha ho (haddr ▸ hP.1) (haddr.trans heq))
            simp [hP.1, hP.2, hne]
          · have : (decide (base ≤ r.body.addr) && decide (r.body.mName = m)) = false := by
              simpa using hP
            simp [this]
      rw [hlast, hkeep]
      have := h.count m
      unfold registeredSince at this
      rw [this]
      simp [hmn]

theorem actorsTracked_afterCharacters (base : Nat) (g : String → Option BoundingBox)
    (calls : List CharacterCall) :
    ∀ (e : PhysicEngine) (added : List String), e.ActorsTracked base added →
      (e.afterCharacters g calls).ActorsTracked base
        ((calls.map (fun c => c.name)).reverse ++ added) := by
  induction calls with
  | nil => intro e added h; exact h
  | cons c rest ih =>
    intro e added h
    have := ih _ _ (actorsTracked_addCharacter base added e h g c.name c.mesh c.position c.scale
      c.rotation)
    rw [afterCharacters_cons]
    simpa using this

end PhysicEngine

theorem StdMap.entries_under_key_le_one {V : Type} (m : StdMap V) (n : String) :
    (m.entries.filter (fun p => decide (p.1 = n))).length ≤ 1 := by
  obtain ⟨l, hnd⟩ := m
  simp only
  induction l with
  | nil => simp
  | cons p rest ih =>
    rw [List.map_cons, List.nodup_cons] at hnd
    by_cases hp : p.1 = n
    · have hrest : rest.filter (fun p => decide (p.1 = n)) = [] := by
        rw [List.filter_eq_nil_iff]
        intro q hq
        simp only [decide_eq_true_eq]
        intro hqn
        exact hnd.1 (List.mem_map.2 ⟨q, hq, hqn.trans hp.symm⟩)
      simp [List.filter_cons, hp, hrest]
    · simpa [List.filter_cons, hp] using ih hnd.2

/-- C5: after any sequence of `addCharacter` calls on an engine whose heap is in order, for
every name `n` the actor map holds at most one actor under `n`; among the bodies created by
those calls exactly one named `n` is registered in the dynamics world if `n` was added and none
otherwise, and it is the body of the actor now held under `n`; and `getCharacter(n)` returns the
actor constructed by the last `addCharacter(n, ...)` of the sequence. -/
theorem addCharacter_never_leaks (e : PhysicEngine) (getBoundingBox : String → Option BoundingBox)
    (calls : List CharacterCall) (n : String) (h : e.HeapOk) :
    ((e.afterCharacters getBoundingBox calls).mActorMap.entries.filter
        (fun p => decide (p.1 = n))).length ≤ 1 ∧
    (e.afterCharacters getBoundingBox calls).registeredSince e.nextAddr n =
      (if n ∈ calls.map (fun c => c.name) then 1 else 0) ∧
    (∀ r ∈ (e.afterCharacters getBoundingBox calls).mDynamicsWorld,
      e.nextAddr ≤ r.body.addr → r.body.mName = n →
      ∃ a, (e.afterCharacters getBoundingBox calls).getCharacter n = some a ∧
        a.mBody.addr = r.body.addr) ∧
    (∀ (pre post : List CharacterCall) (c : CharacterCall), calls = pre ++ c :: post →
      c.name = n → n ∉ post.map (fun c => c.name) →
      (e.afterCharacters getBoundingBox calls).getCharacter n =
        some (PhysicActor.construct (getBoundingBox c.mesh) (e.nextAddr + pre.length) c.name
          c.mesh c.position c.rotation c.scale)) := by
  have inv := PhysicEngine.actorsTracked_afterCharacters e.nextAddr getBoundingBox calls e []
    (PhysicEngine.actorsTracked_init e h)
  refine ⟨StdMap.entries_under_key_le_one _ n, ?_, ?_, ?_⟩
  · rw [inv.count n]
    simp
  · intro r hr hb hname
    obtain ⟨a, ha, haddr⟩ := inv.owner r hr hb
    rw [hname] at ha
    exact ⟨a, by rw [PhysicEngine.getCharacter_eq_find]; exact ha, haddr⟩
  · intro pre post c hcalls hc hn
    subst hcalls
    subst hc
    exact PhysicEngine.getCharacter_afterCharacters e getBoundingBox pre post c hn

theorem addCharacter_never_leaks_witness :
    groundedWorld.HeapOk ∧
    ((groundedWorld.afterCharacters (fun _ => none) npcCalls).registeredSince
        groundedWorld.nextAddr "npc" = 1 ∧
     (groundedWorld.afterCharacters (fun _ => none) npcCalls).registeredSince 0 "npc" = 1 ∧
     (groundedWorld.afterCharacters (fun _ => none) npcCalls).getCharacter "npc" =
        some (PhysicActor.construct none 3 "npc" "npc.nif" ⟨1, 2, 3⟩ Quaternion.IDENTITY 2)) :=
  ⟨by decide,
    by
      have hw := addCharacter_never_leaks groundedWorld (fun _ => none) npcCalls "npc" (by decide)
      refine ⟨hw.2.1.trans (by decide), by decide, ?_⟩
      exact hw.2.2.2 [⟨"npc", "npc.nif", ⟨0, 0, 10⟩, 1, Quaternion.IDENTITY⟩,
        ⟨"guard", "guard.nif", ⟨5, 0, 0⟩, 1, Quaternion.IDENTITY⟩] []
        ⟨"npc", "npc.nif", ⟨1, 2, 3⟩, 2, Quaternion.IDENTITY⟩ rfl rfl (by decide)⟩

/-! ## The ray test -/

/-- C15: for every segment, every setting of the two flags and every content of the caller's
normal cell, when the ray query of the dynamics world reports no hit `rayTest` returns the empty
name with the fraction -1 and leaves the normal cell as it was; when the query reports a hit,
`rayTest` returns the name of the hit body with the closest hit fraction, and the hit normal
goes to the normal cell if the caller passed one. -/
theorem rayTest_hit_or_miss (query : RayQuery) (from_ to_ : Vector3)
    (raycastingObjectOnly ignoreHeightMap : Bool) (normal : Option Vector3) :
    ((query from_ to_ 0xff
        (PhysicEngine.rayTestMask raycastingObjectOnly ignoreHeightMap)).hasHit = false →
      PhysicEngine.rayTest query from_ to_ raycastingObjectOnly ignoreHeightMap normal =
        (("", -1), normal)) ∧
    (∀ obj : RigidBody,
      (query from_ to_ 0xff
        (PhysicEngine.rayTestMask raycastingObjectOnly ignoreHeightMap)).m_collisionObject =
          some obj →
      PhysicEngine.rayTest query from_ to_ raycastingObjectOnly ignoreHeightMap normal =
        ((obj.mName,
          (query from_ to_ 0xff
            (PhysicEngine.rayTestMask raycastingObjectOnly ignoreHeightMap)).m_closestHitFraction),
         normal.map (fun _ =>
          (query from_ to_ 0xff
            (PhysicEngine.rayTestMask raycastingObjectOnly ignoreHeightMap)).m_hitNormalWorld))) := by
  constructor
  · intro h
    unfold PhysicEngine.rayTest
    dsimp only
    cases hq : (query from_ to_ 0xff
        (PhysicEngine.rayTestMask raycastingObjectOnly ignoreHeightMap)).m_collisionObject with
    | none => rfl
    | some obj => simp [ClosestRayResultCallback.hasHit, hq] at h
  · intro obj hq
    unfold PhysicEngine.rayTest
    dsimp only
    rw [hq]

/-! ## The transform of an actor -/

theorem Vector3.add_swap (a b : Vector3) : a.add b = b.add a := by
  simp only [Vector3.add, Vector3.mk.injEq]
  exact ⟨add_comm _ _, add_comm _ _, add_comm _ _⟩

theorem afterCalls_transform (bb : BoundingBox) (calls : List ActorCall) :
    ∀ (a : PhysicActor) (p : Vector3) (r : Quaternion) (s : ℚ),
      a.mMeshTranslation = bb.translation → a.mMeshOrientation = bb.orientation →
      a.mPosition = p → a.mScale = s →
      a.mBody.mWorldTransform.origin = (bb.orientation.rotate (bb.translation.scale s)).add p →
      a.mBody.mWorldTransform.rotation = bb.orientation.mul r →
      (a.afterCalls calls).mMeshTranslation = bb.translation ∧
      (a.afterCalls calls).mMeshOrientation = bb.orientation ∧
      (a.afterCalls calls).mPosition = ActorCall.lastPosition p calls ∧
      (a.afterCalls calls).mScale = ActorCall.lastScale s calls ∧
      (a.afterCalls calls).mBody.mWorldTransform.origin =
        (bb.orientation.rotate (bb.translation.scale (ActorCall.lastScale s calls))).add
          (ActorCall.lastPosition p calls) ∧
      (a.afterCalls calls).mBody.mWorldTransform.rotation =
        bb.orientation.mul (ActorCall.lastRotation r calls) := by
  induction calls with
  | nil =>
    intro a p r s h1 h2 h3 h4 h5 h6
    exact ⟨h1, h2, h3, h4, h5, h6⟩
  | cons c rest ih =>
    intro a p r s h1 h2 h3 h4 h5 h6
    cases c with
    | setPosition q =>
      exact ih (a.setPosition q) q r s h1 h2 rfl h4
        (by simp [PhysicActor.setPosition, RigidBody.setWorldTransform, h1, h2, h4])
        (by simpa [PhysicActor.setPosition, RigidBody.setWorldTransform] using h6)
    | setRotation q =>
      exact ih (a.setRotation q) p q s h1 h2 h3 h4
        (by simpa [PhysicActor.setRotation, RigidBody.setWorldTransform] using h5)
        (by simp [PhysicActor.setRotation, RigidBody.setWorldTransform, h2])
    | setScale t =>
      exact ih (a.setScale t) p r t h1 h2
        (by simpa [PhysicActor.setScale, PhysicActor.setPosition] using h3)
        (by simp [PhysicActor.setScale, PhysicActor.setPosition])
        (by simp [PhysicActor.setScale, PhysicActor.setPosition, RigidBody.setWorldTransform,
              h1, h2, h3])
        (by simpa [PhysicActor.setScale, PhysicActor.setPosition,
              RigidBody.setWorldTransform] using h6)

/-- C17: after the constructor of `PhysicActor` and after any sequence of `setPosition`,
`setRotation` and `setScale` calls, the origin of the body's world transform is `getPosition()`
plus the mesh orientation applied to the mesh translation times the current scale, its rotation
is the mesh orientation times the rotation supplied last, `getPosition()` is the position
supplied last, and `setRotation` and `setScale` leave `getPosition()` unchanged. -/
theorem actor_transform_invariant (bounds : Option BoundingBox) (addr : Nat) (name mesh : String)
    (position : Vector3) (rotation : Quaternion) (scale : ℚ) (calls : List ActorCall) :
    ((PhysicActor.construct bounds addr name mesh position rotation scale).afterCalls
        calls).mBody.mWorldTransform.origin =
      ((PhysicActor.construct bounds addr name mesh position rotation scale).afterCalls
          calls).getPosition.add
        ((PhysicActor.boundsOrDefault bounds).orientation.rotate
          ((PhysicActor.boundsOrDefault bounds).translation.scale
            (ActorCall.lastScale scale calls))) ∧
    ((PhysicActor.construct bounds addr name mesh position rotation scale).afterCalls
        calls).mBody.mWorldTransform.rotation =
      (PhysicActor.boundsOrDefault bounds).orientation.mul
        (ActorCall.lastRotation rotation calls) ∧
    ((PhysicActor.construct bounds addr name mesh position rotation scale).afterCalls
        calls).getPosition = ActorCall.lastPosition position calls ∧
    ((PhysicActor.construct bounds addr name mesh position rotation scale).afterCalls
        calls).mScale = ActorCall.lastScale scale calls ∧
    (∀ r : Quaternion,
      (((PhysicActor.construct bounds addr name mesh position rotation scale).afterCalls
          calls).setRotation r).getPosition =
        ((PhysicActor.construct bounds addr name mesh position rotation scale).afterCalls
          calls).getPosition) ∧
    (∀ s : ℚ,
      (((PhysicActor.construct bounds addr name mesh position rotation scale).afterCalls
          calls).setScale s).getPosition =
        ((PhysicActor.construct bounds addr name mesh position rotation scale).afterCalls
          calls).getPosition) := by
  obtain ⟨-, -, h3, h4, h5, h6⟩ := afterCalls_transform (PhysicActor.boundsOrDefault bounds) calls
    (PhysicActor.construct bounds addr name mesh position rotation scale) position rotation scale
    rfl rfl rfl rfl rfl rfl
  refine ⟨?_, h6, h3, h4, fun r => rfl, fun s => rfl⟩
  rw [h5, PhysicActor.getPosition, h3]
  exact Vector3.add_swap _ _

/-! ## Masks of the registrations -/

theorem categoryMask_values :
    categoryMask CollisionType_Actor =
      CollisionType_Actor ||| CollisionType_World ||| CollisionType_HeightMap ∧
    categoryMask CollisionType_World =
      CollisionType_World ||| CollisionType_Actor ||| CollisionType_HeightMap ∧
    categoryMask CollisionType_HeightMap =
      CollisionType_World ||| CollisionType_Actor ||| CollisionType_Raycasting ∧
    categoryMask CollisionType_Raycasting = CollisionType_Raycasting := by
  decide

theorem mem_removeRigidBody_world {w : btDynamicsWorld} {b : RigidBody} {r : Registration}
    (h : r ∈ w.removeRigidBody b) : r ∈ w :=
  (List.mem_filter.1 h).1

theorem registersWithCategoryMask_registerBodies (e : PhysicEngine)
    (body rb : Option RigidBody) :
    registersWithCategoryMask e.mDynamicsWorld (e.registerBodies body rb).mDynamicsWorld := by
  intro r hr
  rw [PhysicEngine.registerBodies_world] at hr
  rcases List.mem_append.1 hr with hr | hr
  · exact Or.inl hr
  · right
    rcases List.mem_append.1 hr with hr | hr
    · obtain ⟨b, -, rfl⟩ := List.mem_map.1 hr
      exact ⟨Or.inr (Or.inl rfl), categoryMask_values.2.1.symm⟩
    · obtain ⟨b, -, rfl⟩ := List.mem_map.1 hr
      exact ⟨Or.inr (Or.inr (Or.inr rfl)), categoryMask_values.2.2.2.symm⟩

theorem registersWithCategoryMask_addRigidBodySteps (e : PhysicEngine) (name : String)
    (body rb : Option RigidBody) (addToMap : Bool) :
    registersWithCategoryMask e.mDynamicsWorld
      (e.addRigidBodySteps name body addToMap rb).mDynamicsWorld := by
  have hreg := registersWithCategoryMask_registerBodies e body rb
  intro r hr
  cases addToMap with
  | false =>
    have : (e.addRigidBodySteps name body false rb).mDynamicsWorld =
        (e.registerBodies body rb).mDynamicsWorld := by
      cases body <;> cases rb <;> rfl
    rw [this] at hr
    exact hreg r hr
  | true =>
    have : (e.addRigidBodySteps name body true rb).mDynamicsWorld =
        ((e.registerBodies body rb).removeRigidBody name).mDynamicsWorld := by
      cases body <;> cases rb <;>
        simp only [PhysicEngine.addRigidBodySteps, if_true, PhysicEngine.deleteRigidBody_world]
    rw [this, PhysicEngine.removeRigidBody_world] at hr
    exact hreg r (List.mem_filter.1 hr).1

/-- C18 (as amended): every registration of a body in the dynamics world made by the actor
constructor, by `enableCollisionBody`, by `addRigidBody` (lines 417-422, and in the state
in which a completed call ends) and by `addHeightField` carries the fixed mask of its category (Actor: Actor|World|HeightMap, World: World|Actor|HeightMap,
HeightMap: World|Actor|Raycasting, Raycasting: Raycasting); `disableCollisionBody` registers
the body of the actor in group Actor with the mask Raycasting. -/
theorem registrations_carry_category_mask (e : PhysicEngine) :
    (∀ (getBoundingBox : String → Option BoundingBox) (name mesh : String) (position : Vector3)
        (rotation : Quaternion) (scale : ℚ),
      registersWithCategoryMask e.mDynamicsWorld
        (e.newPhysicActor getBoundingBox name mesh position rotation scale).2.mDynamicsWorld) ∧
    (∀ a : PhysicActor,
      registersWithCategoryMask e.mDynamicsWorld (e.enableCollisionBody a).mDynamicsWorld) ∧
    (∀ body raycastingBody : Option RigidBody,
      registersWithCategoryMask e.mDynamicsWorld
        (e.registerBodies body raycastingBody).mDynamicsWorld) ∧
    (∀ (body raycastingBody : Option RigidBody) (addToMap : Bool) (e' : PhysicEngine),
      e.addRigidBody body addToMap raycastingBody = some e' →
      registersWithCategoryMask e.mDynamicsWorld e'.mDynamicsWorld) ∧
    (∀ (heights : List ℚ) (x y : Int) (yoffset triSize : ℚ) (sqrtVerts : Nat),
      registersWithCategoryMask e.mDynamicsWorld
        (e.addHeightField heights x y yoffset triSize sqrtVerts).mDynamicsWorld) ∧
    (∀ a : PhysicActor,
      (e.disableCollisionBody a).mDynamicsWorld =
        e.mDynamicsWorld.removeRigidBody a.mBody ++
          [⟨a.mBody, CollisionType_Actor, CollisionType_Raycasting⟩]) := by
  refine ⟨?_, ?_, registersWithCategoryMask_registerBodies e, ?_, ?_, ?_⟩
  · intro g name mesh position rotation scale r hr
    rcases List.mem_append.1 hr with hr | hr
    · exact Or.inl hr
    · rw [List.mem_singleton.1 hr]
      exact Or.inr ⟨Or.inl rfl, categoryMask_values.1.symm⟩
  · intro a r hr
    rcases List.mem_append.1 hr with hr | hr
    · exact Or.inl (mem_removeRigidBody_world hr)
    · rw [List.mem_singleton.1 hr]
      exact Or.inr ⟨Or.inl rfl, categoryMask_values.1.symm⟩
  · intro body rb addToMap e' he
    rcases PhysicEngine.addRigidBody_eq_some_iff e e' body rb addToMap he with
      ⟨-, -, he'⟩ | ⟨name, he'⟩
    · rw [he']
      exact fun r hr => Or.inl hr
    · rw [he']
      exact registersWithCategoryMask_addRigidBodySteps e name body rb addToMap
  · intro heights x y yoffset triSize sqrtVerts r hr
    rcases List.mem_append.1 hr with hr | hr
    · exact Or.inl hr
    · rw [List.mem_singleton.1 hr]
      exact Or.inr ⟨Or.inr (Or.inr (Or.inl rfl)), categoryMask_values.2.2.1.symm⟩
  · intro a
    rfl

/-- C18 (as stated) fails for `disableCollisionBody`: on the world with the actor "npc", the
call leaves a registration that was not there before, in group Actor, whose mask is Raycasting
and not Actor|World|HeightMap. -/
theorem disableCollisionBody_mask_counterexample :
    ∃ a, groundedWorld.getCharacter "npc" = some a ∧
      (⟨a.mBody, CollisionType_Actor, CollisionType_Raycasting⟩ : Registration) ∈
        (groundedWorld.disableCollisionBody a).mDynamicsWorld ∧
      (⟨a.mBody, CollisionType_Actor, CollisionType_Raycasting⟩ : Registration) ∉
        groundedWorld.mDynamicsWorld ∧
      CollisionType_Raycasting ≠ categoryMask CollisionType_Actor ∧
      ¬ registersWithCategoryMask groundedWorld.mDynamicsWorld
        (groundedWorld.disableCollisionBody a).mDynamicsWorld := by
  have hmask : ∀ r ∈ groundedWorld.mDynamicsWorld, r.mask ≠ CollisionType_Raycasting := by
    decide
  have hne : CollisionType_Raycasting ≠ categoryMask CollisionType_Actor := by decide
  refine ⟨_, rfl, List.mem_append_right _ (List.mem_singleton.2 rfl), fun h => hmask _ h rfl,
    hne, fun h => ?_⟩
  rcases h _ (List.mem_append_right _ (List.mem_singleton.2 rfl)) with h1 | h2
  · exact hmask _ h1 rfl
  · exact hne h2.2

/-! ## Contacts of a body -/

theorem contactTest_foldl (contacts : List ContactPoint) :
    ∀ acc : List String,
      contacts.foldl ContactTestResultCallback.addSingleResult acc =
        acc ++ contacts.filterMap ContactPoint.reportedName := by
  induction contacts with
  | nil => intro acc; simp
  | cons cp rest ih =>
    intro acc
    rw [List.foldl_cons, ih]
    unfold ContactTestResultCallback.addSingleResult
    cases hb : cp.col0.asRigidBody with
    | none => simp [List.filterMap_cons, ContactPoint.reportedName, hb]
    | some body =>
      by_cases hg : cp.col0.m_collisionFilterGroup &&& CollisionType_Raycasting = 0
      · simp [List.filterMap_cons, ContactPoint.reportedName, hb, hg]
      · simp [List.filterMap_cons, ContactPoint.reportedName, hb, hg]

/-- C11 (as amended): for every list of contact points reported by the contact test on the body
looked up under a name, `getCollisions` returns one name per contact point whose first object is
a rigid body outside the Raycasting group, in the order reported: a name occurs as many times as
there are such contact points with it, and every name in the result is the name of the first
object of a reported contact point that is not of the Raycasting group. -/
theorem getCollisions_one_name_per_contact (e : PhysicEngine)
    (contactTest : RigidBody → List ContactPoint) (name : String) :
    e.getCollisions contactTest name =
      (match e.getRigidBody name false with
        | some b => some b
        | none => e.getRigidBody name true).map
        (fun b => (contactTest b).filterMap ContactPoint.reportedName) ∧
    (∀ (b : RigidBody) (n : String),
      (n ∈ (contactTest b).filterMap ContactPoint.reportedName ↔
        ∃ cp ∈ contactTest b, ∃ body, cp.col0.asRigidBody = some body ∧
          cp.col0.m_collisionFilterGroup &&& CollisionType_Raycasting = 0 ∧ body.mName = n) ∧
      ((contactTest b).filterMap ContactPoint.reportedName).count n =
        ((contactTest b).filter (fun cp => decide (cp.reportedName = some n))).length) := by
  constructor
  · unfold PhysicEngine.getCollisions
    dsimp only
    cases (match e.getRigidBody name false with
        | some b => some b
        | none => e.getRigidBody name true) with
    | none => rfl
    | some b => simp [contactTest_foldl]
  · intro b n
    constructor
    · rw [List.mem_filterMap]
      constructor
      · rintro ⟨cp, hcp, hn⟩
        refine ⟨cp, hcp, ?_⟩
        unfold ContactPoint.reportedName at hn
        cases hb : cp.col0.asRigidBody with
        | none => simp [hb] at hn
        | some body =>
          by_cases hg : cp.col0.m_collisionFilterGroup &&& CollisionType_Raycasting = 0
          · simp [hb, hg] at hn
            exact ⟨body, rfl, hg, hn⟩
          · simp [hb, hg] at hn
      · rintro ⟨cp, hcp, body, hb, hg, hn⟩
        exact ⟨cp, hcp, by simp [ContactPoint.reportedName, hb, hg, hn]⟩
    · induction contactTest b with
      | nil => rfl
      | cons cp rest ih =>
        cases hr : cp.reportedName with
        | none => simp [List.filterMap_cons, List.filter_cons, hr, ih]
        | some m =>
          by_cases hm : m = n
          · simp [List.filterMap_cons, List.filter_cons, hr, hm, ih]
          · simp [List.filterMap_cons, List.filter_cons, hr, hm, ih, List.count_cons]

/-- C11 (as stated) fails: when the contact test reports two contact points on the same body
"wall", the result of `getCollisions` holds the name "wall" twice. -/
theorem getCollisions_duplicate_counterexample :
    crateWorld.getCollisions wallTwice "crate" = some ["wall", "wall"] ∧
    ¬ (["wall", "wall"] : List String).Nodup := by
  constructor
  · rfl
  · decide

/-! ## The sphere sweep -/

theorem addSingleResult_onPlayer (cb : ClosestConvexResultCallback) (h : LocalConvexResult)
    (hp : h.onPlayer = true) : (OurClosestConvexResultCallback.addSingleResult cb h).2 = cb := by
  unfold OurClosestConvexResultCallback.addSingleResult
  unfold LocalConvexResult.onPlayer at hp
  cases hb : h.m_hitCollisionObject.asRigidBody with
  | none => simp [hb] at hp
  | some body =>
    rw [hb] at hp
    simp only [decide_eq_true_eq] at hp
    simp [hp]

theorem addSingleResult_not_onPlayer (cb : ClosestConvexResultCallback) (h : LocalConvexResult)
    (hp : h.onPlayer = false) :
    (OurClosestConvexResultCallback.addSingleResult cb h).2 =
      { m_hitCollisionObject := some h.m_hitCollisionObject,
        m_closestHitFraction := h.m_hitFraction } := by
  unfold OurClosestConvexResultCallback.addSingleResult
  unfold LocalConvexResult.onPlayer at hp
  cases hb : h.m_hitCollisionObject.asRigidBody with
  | none => rfl
  | some body =>
    rw [hb] at hp
    simp only [decide_eq_false_iff_not] at hp
    simp [hp, ClosestConvexResultCallback.addSingleResult]

theorem sweep_foldl_cases (hits : List LocalConvexResult) :
    ∀ cb : ClosestConvexResultCallback,
      (hits.foldl (fun cb h => (OurClosestConvexResultCallback.addSingleResult cb h).2) cb = cb ∧
        ∀ h ∈ hits, h.onPlayer = true) ∨
      ∃ h ∈ hits, h.onPlayer = false ∧
        hits.foldl (fun cb h => (OurClosestConvexResultCallback.addSingleResult cb h).2) cb =
          { m_hitCollisionObject := some h.m_hitCollisionObject,
            m_closestHitFraction := h.m_hitFraction } := by
  induction hits with
  | nil => intro cb; exact Or.inl ⟨rfl, fun h hh => by cases hh⟩
  | cons h rest ih =>
    intro cb
    rw [List.foldl_cons]
    cases hp : h.onPlayer with
    | true =>
      rw [addSingleResult_onPlayer cb h hp]
      rcases ih cb with ⟨h1, h2⟩ | ⟨h', hm, hn, he⟩
      · left
        refine ⟨h1, fun x hx => ?_⟩
        rcases List.mem_cons.1 hx with rfl | hx
        · exact hp
        · exact h2 x hx
      · exact Or.inr ⟨h', List.mem_cons_of_mem _ hm, hn, he⟩
    | false =>
      rw [addSingleResult_not_onPlayer cb h hp]
      right
      rcases ih { m_hitCollisionObject := some h.m_hitCollisionObject,
                  m_closestHitFraction := h.m_hitFraction } with ⟨h1, -⟩ | ⟨h', hm, hn, he⟩
      · exact ⟨h, List.mem_cons_self _ _, hp, h1⟩
      · exact ⟨h', List.mem_cons_of_mem _ hm, hn, he⟩

theorem sweep_foldl_filter (hits : List LocalConvexResult) :
    ∀ cb : ClosestConvexResultCallback,
      hits.foldl (fun cb h => (OurClosestConvexResultCallback.addSingleResult cb h).2) cb =
        (hits.filter (fun h => !h.onPlayer)).foldl
          (fun cb h => (OurClosestConvexResultCallback.addSingleResult cb h).2) cb := by
  induction hits with
  | nil => intro cb; rfl
  | cons h rest ih =>
    intro cb
    cases hp : h.onPlayer with
    | true => simp [List.filter_cons, hp, addSingleResult_onPlayer cb h hp, ih]
    | false => simp [List.filter_cons, hp, ih]

/-- C12: for every sequence of hits handed to the sweep callback, a hit on a body named
"player" leaves the recorded closest hit as it was, so `sphereCast` gives the same result as on
the sequence without those hits; when every hit is on a body named "player" (or there is none)
the result is (false, 1); and when the result is (true, f), f is the fraction of a hit of the
sequence that is not on a body named "player". -/
theorem sphereCast_ignores_player (hits : List LocalConvexResult) :
    (∀ (cb : ClosestConvexResultCallback) (h : LocalConvexResult), h.onPlayer = true →
      (OurClosestConvexResultCallback.addSingleResult cb h).2 = cb) ∧
    PhysicEngine.sphereCast hits =
      PhysicEngine.sphereCast (hits.filter (fun h => !h.onPlayer)) ∧
    ((∀ h ∈ hits, h.onPlayer = true) → PhysicEngine.sphereCast hits = (false, 1)) ∧
    (∀ f : ℚ, PhysicEngine.sphereCast hits = (true, f) →
      ∃ h ∈ hits, h.onPlayer = false ∧ h.m_hitFraction = f) := by
  refine ⟨addSingleResult_onPlayer, ?_, ?_, ?_⟩
  · unfold PhysicEngine.sphereCast
    rw [sweep_foldl_filter]
  · intro hall
    unfold PhysicEngine.sphereCast
    rcases sweep_foldl_cases hits ClosestConvexResultCallback.create with
      ⟨h1, -⟩ | ⟨h, hm, hn, -⟩
    · simp only [h1]
      rfl
    · rw [hall h hm] at hn
      cases hn
  · intro f hf
    unfold PhysicEngine.sphereCast at hf
    rcases sweep_foldl_cases hits ClosestConvexResultCallback.create with
      ⟨h1, -⟩ | ⟨h, hm, hn, he⟩
    · simp only [h1] at hf
      simp [ClosestConvexResultCallback.hasHit, ClosestConvexResultCallback.create] at hf
    · simp only [he] at hf
      simp [ClosestConvexResultCallback.hasHit] at hf
      exact ⟨h, hm, hn, hf⟩

/-! ## The nearest contact that is not the filter -/

theorem addSingleResult_no_candidate (cb : DeepestNotMeContactTestResultCallback)
    (filter : String) (origin : Vector3) (cp : ContactPoint)
    (h : cp.candidate filter = none) : cb.addSingleResult filter origin cp = cb := by
  unfold DeepestNotMeContactTestResultCallback.addSingleResult
  unfold ContactPoint.candidate at h
  cases hb : cp.col1.asRigidBody with
  | none => rfl
  | some body =>
    rw [hb] at h
    by_cases hn : body.mName ≠ filter
    · simp [hn] at h
    · simp [hn]

theorem addSingleResult_candidate (cb : DeepestNotMeContactTestResultCallback)
    (filter : String) (origin : Vector3) (cp : ContactPoint) (b : RigidBody) (p : Vector3)
    (h : cp.candidate filter = some (b, p)) :
    cb.addSingleResult filter origin cp =
      if cb.mObject.isNone ∨ origin.distance2 p < cb.mLeastDistSqr then
        { mObject := some b, mContactPoint := p, mLeastDistSqr := origin.distance2 p }
      else cb := by
  unfold DeepestNotMeContactTestResultCallback.addSingleResult
  unfold ContactPoint.candidate at h
  cases hb : cp.col1.asRigidBody with
  | none => simp [hb] at h
  | some body =>
    rw [hb] at h
    by_cases hn : body.mName ≠ filter
    · dsimp only at h ⊢
      rw [if_pos hn] at h
      cases h
      rw [if_pos hn]
    · dsimp only at h
      rw [if_neg hn] at h
      cases h

theorem filteredContact_foldl (filter : String) (origin : Vector3)
    (contacts : List ContactPoint) :
    (contacts.filterMap (ContactPoint.candidate filter) = [] ∧
      contacts.foldl (fun cb cp => cb.addSingleResult filter origin cp)
        DeepestNotMeContactTestResultCallback.create =
          DeepestNotMeContactTestResultCallback.create) ∨
    ∃ (pre : List (RigidBody × Vector3)) (c : RigidBody × Vector3)
      (post : List (RigidBody × Vector3)),
      contacts.filterMap (ContactPoint.candidate filter) = pre ++ c :: post ∧
      contacts.foldl (fun cb cp => cb.addSingleResult filter origin cp)
        DeepestNotMeContactTestResultCallback.create =
          { mObject := some c.1, mContactPoint := c.2, mLeastDistSqr := origin.distance2 c.2 } ∧
      (∀ c' ∈ pre, origin.distance2 c.2 < origin.distance2 c'.2) ∧
      (∀ c' ∈ post, origin.distance2 c.2 ≤ origin.distance2 c'.2) := by
  induction contacts using List.reverseRecOn with
  | nil => exact Or.inl ⟨rfl, rfl⟩
  | append_singleton rest cp ih =>
    rw [List.foldl_append, List.filterMap_append, List.foldl_cons, List.foldl_nil]
    cases hc : cp.candidate filter with
    | none =>
      rw [addSingleResult_no_candidate _ _ _ _ hc]
      simpa [List.filterMap_cons, hc] using ih
    | some cn =>
      obtain ⟨b, p⟩ := cn
      rw [addSingleResult_candidate _ _ _ _ b p hc]
      have hfm : List.filterMap (ContactPoint.candidate filter) [cp] = [(b, p)] := by
        simp [List.filterMap_cons, hc]
      rw [hfm]
      right
      rcases ih with ⟨h1, h2⟩ | ⟨pre, c, post, h1, h2, h3, h4⟩
      · have hnil : ∀ c' ∈ ([] : List (RigidBody × Vector3)),
            origin.distance2 p < origin.distance2 c'.2 := fun c' hc' => by cases hc'
        have hnil' : ∀ c' ∈ ([] : List (RigidBody × Vector3)),
            origin.distance2 p ≤ origin.distance2 c'.2 := fun c' hc' => by cases hc'
        refine ⟨[], (b, p), [], (by rw [h1]), ?_, hnil, hnil'⟩
        rw [h2]
        simp [DeepestNotMeContactTestResultCallback.create]
      · rw [h2, h1]
        by_cases hlt : origin.distance2 p < origin.distance2 c.2
        · have hnil' : ∀ c' ∈ ([] : List (RigidBody × Vector3)),
              origin.distance2 p ≤ origin.distance2 c'.2 := fun c' hc' => by cases hc'
          refine ⟨pre ++ c :: post, (b, p), [], rfl, (by simp [hlt]), ?_, hnil'⟩
          intro c' hc'
          rcases List.mem_append.1 hc' with hc' | hc'
          · exact lt_trans hlt (h3 c' hc')
          · rcases List.mem_cons.1 hc' with rfl | hc'
            · exact hlt
            · exact lt_of_lt_of_le hlt (h4 c' hc')
        · refine ⟨pre, c, post ++ [(b, p)], (by simp), (by simp [hlt]), h3, ?_⟩
          intro c' hc'
          rcases List.mem_append.1 hc' with hc' | hc'
          · exact h4 c' hc'
          · rw [List.mem_singleton.1 hc']
            exact not_lt.1 hlt

/-- C13: for every filter name, origin and sequence of contact points handed to the callback,
`getFilteredContact` returns no body and the point (0,0,0) when no contact point has a rigid
body with a name other than the filter as its second object; otherwise it returns the body and
the contact position of such a contact point whose squared distance from the origin is strictly
smaller than that of every earlier one and not larger than that of every later one: a nearest
contact, the first among equally near ones. -/
theorem getFilteredContact_nearest (filter : String) (origin : Vector3)
    (contacts : List ContactPoint) :
    (contacts.filterMap (ContactPoint.candidate filter) = [] →
      PhysicEngine.getFilteredContact filter origin contacts = (none, ⟨0, 0, 0⟩)) ∧
    (contacts.filterMap (ContactPoint.candidate filter) ≠ [] →
      ∃ (pre : List (RigidBody × Vector3)) (c : RigidBody × Vector3)
        (post : List (RigidBody × Vector3)),
        contacts.filterMap (ContactPoint.candidate filter) = pre ++ c :: post ∧
        PhysicEngine.getFilteredContact filter origin contacts = (some c.1, c.2) ∧
        (∀ c' ∈ pre, origin.distance2 c.2 < origin.distance2 c'.2) ∧
        (∀ c' ∈ post, origin.distance2 c.2 ≤ origin.distance2 c'.2)) := by
  unfold PhysicEngine.getFilteredContact
  rcases filteredContact_foldl filter origin contacts with
    ⟨h1, h2⟩ | ⟨pre, c, post, h1, h2, h3, h4⟩
  · exact ⟨fun _ => by simp only [h2]; rfl, fun hne => absurd h1 hne⟩
  · refine ⟨fun hnil => ?_, fun _ => ⟨pre, c, post, h1, by simp only [h2], h3, h4⟩⟩
    rw [h1] at hnil
    simp at hnil

/-! ## The multi-hit ray test -/

theorem rayTest2_collect (results : List (ℚ × RigidBody)) :
    ∀ acc : List (ℚ × String),
      results.foldl (fun acc it => acc ++ [(it.1, it.2.mName)]) acc =
        acc ++ results.map (fun it => (it.1, it.2.mName)) := by
  induction results with
  | nil => intro acc; simp
  | cons it rest ih => intro acc; rw [List.foldl_cons, ih]; simp

theorem stdSort_cmp_sorted (l : List (ℚ × String)) :
    (stdSort MyRayResultCallback.cmp l).Sorted (fun a b => a.1 ≤ b.1) := by
  haveI : IsTotal (ℚ × String) (fun a b => MyRayResultCallback.cmp b a = false) :=
    ⟨fun a b => by
      simp only [MyRayResultCallback.cmp, decide_eq_false_iff_not, not_lt]
      exact le_total a.1 b.1⟩
  haveI : IsTrans (ℚ × String) (fun a b => MyRayResultCallback.cmp b a = false) :=
    ⟨fun a b c => by
      simp only [MyRayResultCallback.cmp, decide_eq_false_iff_not, not_lt]
      exact le_trans⟩
  have h := List.sorted_insertionSort (fun a b => MyRayResultCallback.cmp b a = false) l
  refine List.Pairwise.imp ?_ h
  intro a b hab
  simpa [MyRayResultCallback.cmp] using hab

/-- C14: for every list of hits collected by the ray query, `rayTest2` returns a list of
(fraction, name) pairs that is sorted by non-decreasing fraction and is a permutation of the
hits, each fraction paired with the name of the body hit; in particular it has as many
elements as there are hits. -/
theorem rayTest2_sorted_perm (results : List (ℚ × RigidBody)) :
    (PhysicEngine.rayTest2 results).Sorted (fun a b => a.1 ≤ b.1) ∧
    (PhysicEngine.rayTest2 results).Perm (results.map (fun it => (it.1, it.2.mName))) ∧
    (PhysicEngine.rayTest2 results).length = results.length := by
  have hperm : (PhysicEngine.rayTest2 results).Perm
      (results.map (fun it => (it.1, it.2.mName))) := by
    unfold PhysicEngine.rayTest2
    dsimp only
    rw [rayTest2_collect, List.nil_append]
    exact List.perm_insertionSort _ _
  refine ⟨stdSort_cmp_sorted _, hperm, ?_⟩
  rw [hperm.length_eq, List.length_map]

/-! ## The height range of a tile -/

theorem digitChar_facts :
    ∀ d, d < 10 → (digitChar d).toNat - 48 = d ∧ digitChar d ≠ '-' ∧ digitChar d ≠ '_' := by
  decide

theorem mem_natDecimal (n : Nat) (c : Char) (hc : c ∈ natDecimal n) :
    ∃ d, d < 10 ∧ c = digitChar d := by
  unfold natDecimal at hc
  by_cases hn : n = 0
  · rw [if_pos hn] at hc
    rw [List.mem_singleton.1 hc]
    exact ⟨0, by decide, by decide⟩
  · rw [if_neg hn] at hc
    obtain ⟨d, hd, rfl⟩ := List.mem_map.1 hc
    exact ⟨d, Nat.digits_lt_base (by decide) (List.mem_reverse.1 hd), rfl⟩

theorem natDecimal_decode (n : Nat) :
    Nat.ofDigits 10 (((natDecimal n).map (fun c => c.toNat - 48)).reverse) = n := by
  unfold natDecimal
  by_cases hn : n = 0
  · rw [if_pos hn, hn]
    decide
  · rw [if_neg hn, List.map_map]
    have hmap : List.map ((fun c : Char => c.toNat - 48) ∘ digitChar) (Nat.digits 10 n).reverse =
        (Nat.digits 10 n).reverse := by
      conv_rhs => rw [← List.map_id (Nat.digits 10 n).reverse]
      apply List.map_congr_left
      intro d hd
      exact (digitChar_facts d (Nat.digits_lt_base (by decide) (List.mem_reverse.1 hd))).1
    rw [hmap, List.reverse_reverse, Nat.ofDigits_digits]

theorem natDecimal_injective {a b : Nat} (h : natDecimal a = natDecimal b) : a = b := by
  rw [← natDecimal_decode a, ← natDecimal_decode b, h]

theorem natDecimal_ne_nil (n : Nat) : natDecimal n ≠ [] := by
  unfold natDecimal
  by_cases hn : n = 0
  · rw [if_pos hn]
    exact List.cons_ne_nil _ _
  · rw [if_neg hn]
    intro h
    rw [List.map_eq_nil_iff, List.reverse_eq_nil_iff] at h
    exact hn (Nat.digits_eq_nil_iff_eq_zero.1 h)

theorem lexical_cast_data (x : Int) :
    (lexical_cast x).data =
      if x < 0 then '-' :: natDecimal x.natAbs else natDecimal x.natAbs := rfl

theorem underscore_not_mem_lexical_cast (x : Int) : '_' ∉ (lexical_cast x).data := by
  rw [lexical_cast_data]
  have hnat : '_' ∉ natDecimal x.natAbs := by
    intro h
    obtain ⟨d, hd, hc⟩ := mem_natDecimal _ _ h
    exact (digitChar_facts d hd).2.2 hc.symm
  by_cases hx : x < 0
  · rw [if_pos hx]
    intro h
    rcases List.mem_cons.1 h with h | h
    · exact absurd h (by decide)
    · exact hnat h
  · rw [if_neg hx]
    exact hnat

theorem lexical_cast_injective {x y : Int} (h : (lexical_cast x).data = (lexical_cast y).data) :
    x = y := by
  rw [lexical_cast_data, lexical_cast_data] at h
  have hhead : ∀ (n : Nat) (l : List Char), natDecimal n ≠ '-' :: l := by
    intro n l hl
    have hm : '-' ∈ natDecimal n := by rw [hl]; exact List.mem_cons_self _ _
    obtain ⟨d, hd, hc⟩ := mem_natDecimal _ _ hm
    exact (digitChar_facts d hd).2.1 hc.symm
  by_cases hx : x < 0
  · by_cases hy : y < 0
    · rw [if_pos hx, if_pos hy] at h
      have := natDecimal_injective (List.cons.inj h).2
      omega
    · rw [if_pos hx, if_neg hy] at h
      exact absurd h.symm (hhead _ _)
  · by_cases hy : y < 0
    · rw [if_neg hx, if_pos hy] at h
      exact absurd h (hhead _ _)
    · rw [if_neg hx, if_neg hy] at h
      have := natDecimal_injective h
      omega

theorem split_at_separator (c : Char) :
    ∀ (l1 l2 r1 r2 : List Char), c ∉ l1 → c ∉ l2 → l1 ++ c :: r1 = l2 ++ c :: r2 →
      l1 = l2 ∧ r1 = r2 := by
  intro l1
  induction l1 with
  | nil =>
    intro l2 r1 r2 _ h2 h
    cases l2 with
    | nil => exact ⟨rfl, (List.cons.inj h).2⟩
    | cons a t =>
      have := (List.cons.inj h).1
      exact absurd (this ▸ List.mem_cons_self _ _) h2
  | cons a t ih =>
    intro l2 r1 r2 h1 h2 h
    cases l2 with
    | nil =>
      have := (List.cons.inj h).1
      exact absurd (this ▸ List.mem_cons_self _ _) h1
    | cons b u =>
      obtain ⟨hab, htl⟩ := List.cons.inj h
      obtain ⟨h3, h4⟩ := ih u r1 r2 (fun hm => h1 (List.mem_cons_of_mem _ hm))
        (fun hm => h2 (List.mem_cons_of_mem _ hm)) htl
      exact ⟨by rw [hab, h3], h4⟩

theorem heightFieldName_injective {x1 y1 x2 y2 : Int}
    (h : heightFieldName x1 y1 = heightFieldName x2 y2) : x1 = x2 ∧ y1 = y2 := by
  have hd := congrArg String.data h
  simp only [heightFieldName, String.data_append, List.append_assoc] at hd
  have hd2 := List.append_cancel_left hd
  rw [List.singleton_append, List.singleton_append] at hd2
  obtain ⟨hx, hy⟩ := split_at_separator '_' _ _ _ _ (underscore_not_mem_lexical_cast x1)
    (underscore_not_mem_lexical_cast x2) hd2
  exact ⟨lexical_cast_injective hx, lexical_cast_injective hy⟩

/-- C19: the name `"HeightField_" + decimal(x) + "_" + decimal(y)` that `addHeightField` and
`removeHeightField` derive from a grid coordinate is injective on pairs of integers, negative
ones included: equal names imply equal coordinates.  Hence `addHeightField` at one coordinate
leaves the entry of every other coordinate as it was, and so does a `removeHeightField` that
completes. -/
theorem heightField_names_distinct :
    (∀ x1 y1 x2 y2 : Int, heightFieldName x1 y1 = heightFieldName x2 y2 → x1 = x2 ∧ y1 = y2) ∧
    (∀ (e : PhysicEngine) (heights : List ℚ) (x1 y1 x2 y2 : Int) (yoffset triSize : ℚ)
        (sqrtVerts : Nat), (x1 ≠ x2 ∨ y1 ≠ y2) →
      (e.addHeightField heights x1 y1 yoffset triSize sqrtVerts).mHeightFieldMap.find
          (heightFieldName x2 y2) =
        e.mHeightFieldMap.find (heightFieldName x2 y2)) ∧
    (∀ (e e' : PhysicEngine) (x1 y1 x2 y2 : Int), (x1 ≠ x2 ∨ y1 ≠ y2) →
      e.removeHeightField x1 y1 = some e' →
      e'.mHeightFieldMap.find (heightFieldName x2 y2) =
        e.mHeightFieldMap.find (heightFieldName x2 y2)) := by
  have hne : ∀ x1 y1 x2 y2 : Int, (x1 ≠ x2 ∨ y1 ≠ y2) →
      heightFieldName x2 y2 ≠ heightFieldName x1 y1 := by
    intro x1 y1 x2 y2 hxy h
    obtain ⟨h1, h2⟩ := heightFieldName_injective h
    rcases hxy with hxy | hxy
    · exact hxy h1.symm
    · exact hxy h2.symm
  refine ⟨fun x1 y1 x2 y2 h => heightFieldName_injective h, ?_, ?_⟩
  · intro e heights x1 y1 x2 y2 yoffset triSize sqrtVerts hxy
    unfold PhysicEngine.addHeightField
    dsimp only
    exact StdMap.find_assign_ne _ _ (hne x1 y1 x2 y2 hxy)
  · intro e e' x1 y1 x2 y2 hxy hrem
    unfold PhysicEngine.removeHeightField at hrem
    dsimp only at hrem
    split at hrem
    · cases hrem
    · cases hrem
      exact StdMap.find_erase_ne _ (hne x1 y1 x2 y2 hxy)

end Physic
end OEngine
